import Mathlib

/-!
The handwritten-text-recognition pipeline of `ocr.go`.

A shallow embedding of the two-stage pipeline of `src/ocr.go`
(`YandexOCR`, `MistralAPI`, `ProcessImage`, `logTiming`) and theorems about it.

Conventions of the embedding

* A Go `string` is a Lean `String`; a Go `error` is an `Option String`
  (`none` is `nil`, `some m` an error whose `Error()` text is `m`).
* Everything the program obtains from outside (file system, HTTP, JSON decoding,
  clock) is read from a record of outcomes, the *world*; every effect the program
  performs is appended to a trace of `Event`s, in program order.
* A `float64` number of seconds is represented by the `Duration` (in nanoseconds)
  whose `.Seconds()` it is; the literal `0` is the duration `0`.
* Text written to standard output is not part of the model.
-/

set_option autoImplicit false

namespace OCRPipeline

/-! ## Strings -/

/-- Go `unicode.IsSpace`: the code points with the Unicode White_Space property. -/
def isSpace (c : Char) : Bool :=
  let n := c.toNat
  (9 ≤ n && n ≤ 13) || n == 0x20 || n == 0x85 || n == 0xA0 || n == 0x1680 ||
  (0x2000 ≤ n && n ≤ 0x200A) || n == 0x2028 || n == 0x2029 || n == 0x202F ||
  n == 0x205F || n == 0x3000

/-- Trim of a list of characters at both ends. -/
def trimChars (cs : List Char) : List Char :=
  ((cs.dropWhile isSpace).reverse.dropWhile isSpace).reverse

/-- Go `strings.TrimSpace`: the string without its leading and trailing white space. -/
def TrimSpace (s : String) : String := ⟨trimChars s.data⟩

/-! ## Data model -/

/-- Go `time.Duration`: a number of nanoseconds. -/
abbrev Duration := Int

/-- Go `time.Second`. -/
def Second : Duration := 1000000000

/-- Wrap-around of a mathematical integer into the range of `int64`. -/
def wrapInt64 (x : Int) : Int := (x + 2 ^ 63) % 2 ^ 64 - 2 ^ 63

/-- An element of `OCRResponse.Result.TextAnnotation.Blocks[i].Lines[j].Words`. -/
structure OCRWord where
  Text : String
deriving DecidableEq, Repr

/-- An element of `OCRResponse.Result.TextAnnotation.Blocks[i].Lines`. -/
structure OCRLine where
  Words : List OCRWord
deriving DecidableEq, Repr

/-- An element of `BoundingBox.Vertices`. -/
structure OCRVertex where
  X : String
  Y : String
deriving DecidableEq, Repr

/-- The field `BoundingBox` of a block. -/
structure OCRBoundingBox where
  Vertices : List OCRVertex
deriving DecidableEq, Repr

/-- An element of `OCRResponse.Result.TextAnnotation.Blocks`. -/
structure OCRBlock where
  BoundingBox : OCRBoundingBox
  Lines : List OCRLine
deriving DecidableEq, Repr

/-- The field `OCRResponse.Result.TextAnnotation`. -/
structure OCRTextAnnotation where
  Width : String
  Height : String
  Blocks : List OCRBlock
  FullText : String
deriving DecidableEq, Repr

/-- The field `OCRResponse.Result`. -/
structure OCRResultField where
  TextAnnotation : OCRTextAnnotation
deriving DecidableEq, Repr

/-- The field `OCRResponse.Error`. -/
structure OCRErrorField where
  Code : String
  Message : String
deriving DecidableEq, Repr

/-- Go `OCRResponse`: a decoded Yandex OCR API response. -/
structure OCRResponse where
  Result : OCRResultField
  Error : OCRErrorField
deriving DecidableEq, Repr

/-- The field `Message` of a choice of a `MistralResponse`. -/
structure MistralMessage where
  Content : String
  Role : String
deriving DecidableEq, Repr

/-- An element of `MistralResponse.Choices`. -/
structure MistralChoice where
  Message : MistralMessage
deriving DecidableEq, Repr

/-- The field `MistralResponse.Error`. -/
structure MistralErrorField where
  Message : String
  /-- The field `Type` of the source (a keyword here). -/
  Typ : String
deriving DecidableEq, Repr

/-- Go `MistralResponse`: a decoded Mistral chat API response. -/
structure MistralResponse where
  Choices : List MistralChoice
  Error : MistralErrorField
deriving DecidableEq, Repr

/-- Go `Timing`: the three durations of a run, in seconds. -/
structure Timing where
  OCRTime : Duration
  GPTTime : Duration
  TotalTime : Duration
deriving DecidableEq, Repr

/-! ## Worlds and traces -/

/-- An effect performed by the program. -/
inductive Event where
  /-- The call `os.Stat(imagePath)`. -/
  | statFile
  /-- The call `os.Open(imagePath)`. -/
  | openFile
  /-- The call `io.ReadAll(file)`. -/
  | readFile
  /-- The call `http.NewRequest` for the given URL. -/
  | newRequest (url : String)
  /-- The call `client.Do(req)` for a request to the given URL. -/
  | send (url : String)
  /-- The call `io.ReadAll(resp.Body)`. -/
  | readBody
  /-- The call `os.WriteFile(name, content, 0644)`. -/
  | writeFile (name : String) (content : String)
  /-- The calls `checkIP` and `logIP` at the start of `MistralAPI`. -/
  | checkIP
  /-- The start of an iteration of the retry loop of `MistralAPI`. -/
  | attempt (n : Nat)
  /-- The call `time.Sleep(d)`. -/
  | sleep (d : Duration)
  /-- The call `os.OpenFile(name, O_APPEND|O_CREATE|O_WRONLY, 0644)`. -/
  | openAppend (name : String)
  /-- The call `f.WriteString(s)` on the file opened for appending. -/
  | writeString (s : String)
deriving DecidableEq, Repr

/-- What `client.Do` hands back on success, with the outcome of reading its body. -/
structure HTTPResponse where
  /-- The field `resp.StatusCode`. -/
  StatusCode : Int
  /-- The bytes `io.ReadAll(resp.Body)` returns. -/
  body : String
  /-- The error `io.ReadAll(resp.Body)` returns. -/
  readErr : Option String
deriving DecidableEq, Repr

/-- The three results of `YandexOCR`, `MistralAPI`, together with the effects of the call. -/
structure Run where
  text : String
  seconds : Duration
  err : Option String
  trace : List Event
deriving DecidableEq, Repr

/-- Outcomes of everything `YandexOCR` obtains from outside. -/
structure OCRWorld where
  /-- Result of `os.Stat(imagePath)`: an error, or the size of the file. -/
  Stat : Except String Int
  /-- Error of `os.Open(imagePath)`. -/
  Open : Option String
  /-- Bytes returned by `io.ReadAll(file)`. -/
  fileBytes : List (Fin 256)
  /-- Error returned by `io.ReadAll(file)`. -/
  fileReadErr : Option String
  /-- The function `base64.StdEncoding.EncodeToString`. -/
  EncodeToString : List (Fin 256) → String
  /-- The function `json.Marshal` on the payload with the given `content`. -/
  Marshal : String → Except String String
  /-- Error of `http.NewRequest`. -/
  NewRequest : Option String
  /-- Result of `client.Do(req)`. -/
  Do : Except String HTTPResponse
  /-- Error of `os.WriteFile("api_response.json", ...)`. -/
  WriteFile : Option String
  /-- The function `json.Unmarshal` into an `OCRResponse`. -/
  Unmarshal : String → Except String OCRResponse
  /-- Value of `time.Since(start)` where the call returns. -/
  since : Duration

/-! ## `YandexOCR` -/

/-- The URL of the OCR endpoint. -/
def ocrURL : String := "https://ocr.api.cloud.yandex.net/ocr/v1/recognizeText"

/-- The innermost loop `for _, word := range line.Words { text += word.Text + " " }`. -/
def appendWords (text : String) (words : List OCRWord) : String :=
  words.foldl (fun text word => text ++ (word.Text ++ " ")) text

/-- The loop over the lines of a block: the words of the line, then `text += "\n"`. -/
def appendLines (text : String) (lines : List OCRLine) : String :=
  lines.foldl (fun text line => appendWords text line.Words ++ "\n") text

/-- The loop over `ocrResp.Result.TextAnnotation.Blocks`. -/
def appendBlocks (text : String) (blocks : List OCRBlock) : String :=
  blocks.foldl (fun text block => appendLines text block.Lines) text

/-- The value of `text` after `text := FullText; if text == "" { ...blocks... }`. -/
def obtainedText (ocrResp : OCRResponse) : String :=
  let text := ocrResp.Result.TextAnnotation.FullText
  if text = "" then appendBlocks text ocrResp.Result.TextAnnotation.Blocks else text

/-- Go `YandexOCR(imagePath, folderID, iamToken)`, run in the world `w`. -/
def YandexOCR (w : OCRWorld) : Run :=
  let tr : List Event := [.statFile]
  match w.Stat with
  | .error err => ⟨"", 0, some ("check file: " ++ err), tr⟩
  | .ok size =>
  if size = 0 then ⟨"", 0, some "image file is empty", tr⟩ else
  let tr := tr ++ [.openFile]
  match w.Open with
  | some err => ⟨"", 0, some ("open image: " ++ err), tr⟩
  | none =>
  let tr := tr ++ [.readFile]
  match w.fileReadErr with
  | some err => ⟨"", 0, some ("read image: " ++ err), tr⟩
  | none =>
  let imgBytes := w.fileBytes
  if imgBytes.length = 0 then ⟨"", 0, some "image data is empty", tr⟩ else
  let imgBase64 := w.EncodeToString imgBytes
  if imgBase64 = "" then ⟨"", 0, some "base64 encoding failed", tr⟩ else
  match w.Marshal imgBase64 with
  | .error err => ⟨"", 0, some ("marshal payload: " ++ err), tr⟩
  | .ok _body =>
  let tr := tr ++ [.newRequest ocrURL]
  match w.NewRequest with
  | some err => ⟨"", 0, some ("create request: " ++ err), tr⟩
  | none =>
  let tr := tr ++ [.send ocrURL]
  match w.Do with
  | .error err => ⟨"", 0, some ("send request: " ++ err), tr⟩
  | .ok resp =>
  let tr := tr ++ [.readBody]
  if resp.StatusCode ≠ 200 then
    ⟨"", 0, some ("OCR failed: status " ++ toString resp.StatusCode ++ ", body: " ++ resp.body), tr⟩
  else
  match resp.readErr with
  | some err => ⟨"", 0, some ("read response: " ++ err), tr⟩
  | none =>
  let respBody := resp.body
  let tr := tr ++ [.writeFile "api_response.json" respBody]
  match w.WriteFile with
  | some err => ⟨"", 0, some ("write api_response.json: " ++ err), tr⟩
  | none =>
  match w.Unmarshal respBody with
  | .error err => ⟨"", 0, some ("unmarshal response: " ++ err), tr⟩
  | .ok ocrResp =>
  if ocrResp.Error.Message ≠ "" then
    ⟨"", w.since, some ("OCR error: " ++ ocrResp.Error.Message), tr⟩
  else
  let text := obtainedText ocrResp
  if text = "" then ⟨"", w.since, some "empty text detected", tr⟩ else
  ⟨TrimSpace text, w.since, none, tr⟩

/-- The run of `YandexOCR` in `w` received HTTP 200, read the body, stored it and decoded
it into `ocrResp`. -/
def ParsedOCR (w : OCRWorld) (ocrResp : OCRResponse) : Prop :=
  ∃ size resp, w.Stat = .ok size ∧ size ≠ 0 ∧ w.Open = none ∧ w.fileReadErr = none ∧
    w.fileBytes.length ≠ 0 ∧ w.EncodeToString w.fileBytes ≠ "" ∧
    (∃ body, w.Marshal (w.EncodeToString w.fileBytes) = .ok body) ∧
    w.NewRequest = none ∧ w.Do = .ok resp ∧ resp.StatusCode = 200 ∧ resp.readErr = none ∧
    w.WriteFile = none ∧ w.Unmarshal resp.body = .ok ocrResp

/-- A world in which every step before decoding succeeds and the decoder yields `ocrResp`
for the body received. -/
def ocrWorldOf (ocrResp : OCRResponse) (since : Duration) : OCRWorld where
  Stat := .ok 4
  Open := none
  fileBytes := [255, 216, 255, 224]
  fileReadErr := none
  EncodeToString := fun _ => "/9j/4A=="
  Marshal := fun content => .ok content
  NewRequest := none
  Do := .ok ⟨200, "{}", none⟩
  WriteFile := none
  Unmarshal := fun _ => .ok ocrResp
  since := since

/-- A response with the given full text and lines (one block), and no error. -/
def ocrResponseOf (fullText : String) (lines : List (List String)) : OCRResponse :=
  ⟨⟨⟨"", "", [⟨⟨[]⟩, lines.map (fun ws => ⟨ws.map OCRWord.mk⟩)⟩], fullText⟩⟩, ⟨"", ""⟩⟩

/-- The effects of a run of `YandexOCR` that reads the response body `body`. -/
def ocrTrace (body : String) : List Event :=
  [.statFile, .openFile, .readFile, .newRequest ocrURL, .send ocrURL, .readBody,
    .writeFile "api_response.json" body]

/-- A response with the error message `quota exceeded`, a full text and a block. -/
def quotaResponse : OCRResponse :=
  { ocrResponseOf "some text" [["x"]] with Error := ⟨"", "quota exceeded"⟩ }

/-! ## `MistralAPI` -/

/-- Outcomes of everything one iteration of the retry loop obtains from outside. -/
structure Attempt where
  /-- Error of `http.NewRequest`. -/
  NewRequest : Option String
  /-- Result of `client.Do(req)`. -/
  Do : Except String HTTPResponse
  /-- Error of `os.WriteFile("mistral_response.json", ...)`. -/
  WriteFile : Option String
  /-- Value of `time.Since(start)` where the call returns from this iteration. -/
  since : Duration

/-- Outcomes of everything `MistralAPI` obtains from outside. -/
structure MistralWorld where
  /-- The environment variable `MISTRAL_MODEL`. -/
  MISTRAL_MODEL : String
  /-- The environment variable `USE_PROXY`. -/
  USE_PROXY : String
  /-- The environment variable `PROXY_ADDR`. -/
  PROXY_ADDR : String
  /-- Error of `proxy.SOCKS5("tcp", proxyAddr, nil, proxy.Direct)`. -/
  SOCKS5 : String → Option String
  /-- The function `json.Marshal` on the payload with the given model and content. -/
  Marshal : String → String → Except String String
  /-- The outcomes of the iteration with the given value of `attempt`. -/
  attempts : Nat → Attempt
  /-- The function `json.Unmarshal` into a `MistralResponse`. -/
  Unmarshal : String → Except String MistralResponse

/-- The URL of the chat endpoint. -/
def mistralURL : String := "https://api.mistral.ai/v1/chat/completions"

/-- The content of the user message: the fixed instruction, then the text. -/
def prompt (text : String) : String :=
  "Исправьте ошибки OCR в тексте, сохраняя оригинальный язык и переносы строк. Исправляйте ТОЛЬКО явные орфографические ошибки или неполные слова на основе написания и контекста. Не добавляйте и не удаляйте слова, не изменяйте структуру, порядок слов, пунктуацию, смысл и самое главное - переносы строк, даже если текст нелогичен. Сводите исправления к минимуму. Возвращайте только исправленный текст без дополнительных комментариев. если текст довольно неразборчивый, в самом конце добавляй текст \"слишком неразборчиво 9905148\".\n\n"
    ++ text

/-- How an iteration of the retry loop ends: with `continue`, or with `return`. -/
inductive Step where
  /-- The iteration ended with `continue`; the effects so far. -/
  | continue (tr : List Event)
  /-- The iteration ended with `return`. -/
  | return (r : Run)
deriving DecidableEq, Repr

/-- The duration `time.Duration(attempt) * time.Second`, computed in `int64`. -/
def backoff (attempt : Nat) : Duration := wrapInt64 (wrapInt64 attempt * Second)

/-- The statements `if attempt < maxRetries { time.Sleep(...); continue }` followed by the
`return` of the exhausted case. -/
def sleepOrReturn (maxRetries attempt : Nat) (tr : List Event) (exhausted : Run) : Step :=
  if attempt < maxRetries then
    .continue (tr ++ [.sleep (backoff attempt)])
  else .return exhausted

/-- The body of the loop `for attempt := 1; attempt <= maxRetries; attempt++`. -/
def attemptBody (w : MistralWorld) (maxRetries attempt : Nat) (tr : List Event) : Step :=
  let a := w.attempts attempt
  let tr := tr ++ [.attempt attempt, .newRequest mistralURL]
  match a.NewRequest with
  | some err => .return ⟨"", 0, some ("create request: " ++ err), tr⟩
  | none =>
  let tr := tr ++ [.send mistralURL]
  match a.Do with
  | .error err =>
    sleepOrReturn maxRetries attempt tr
      ⟨"", 0, some ("send request after " ++ toString maxRetries ++ " attempts: " ++ err), tr⟩
  | .ok resp =>
  let tr := tr ++ [.readBody]
  match resp.readErr with
  | some err =>
    sleepOrReturn maxRetries attempt tr
      ⟨"", 0, some ("read response after " ++ toString maxRetries ++ " attempts: " ++ err), tr⟩
  | none =>
  let respBody := resp.body
  let tr := tr ++ [.writeFile "mistral_response.json" respBody]
  if resp.StatusCode ≠ 200 then
    sleepOrReturn maxRetries attempt tr
      ⟨"", 0, some ("Mistral failed: status " ++ toString resp.StatusCode ++ ", body: " ++
        respBody), tr⟩
  else
  match w.Unmarshal respBody with
  | .error err =>
    sleepOrReturn maxRetries attempt tr
      ⟨"", 0, some ("unmarshal response after " ++ toString maxRetries ++ " attempts: " ++ err),
        tr⟩
  | .ok mistralResp =>
  if mistralResp.Error.Message ≠ "" then
    .return ⟨"", a.since, some ("Mistral error: " ++ mistralResp.Error.Message ++ " (type: " ++
      mistralResp.Error.Typ ++ ")"), tr⟩
  else
  let noValid : Step :=
    sleepOrReturn maxRetries attempt tr
      ⟨"", a.since, some ("no Mistral response, body: " ++ respBody), tr⟩
  match mistralResp.Choices with
  | [] => noValid
  | choice :: _ =>
    if choice.Message.Content = "" then noValid
    else .return ⟨TrimSpace choice.Message.Content, a.since, none, tr⟩

/-- The loop `for attempt := 1; attempt <= maxRetries; attempt++ { ... }` and the `return`
after it, started at `attempt` with `fuel` iterations allowed; `none` when they do not
suffice. -/
def retryLoop (w : MistralWorld) (maxRetries : Nat) : Nat → Nat → List Event → Option Run
  | 0, _, _ => none
  | fuel + 1, attempt, tr =>
    if attempt ≤ maxRetries then
      match attemptBody w maxRetries attempt tr with
      | .continue tr => retryLoop w maxRetries fuel (attempt + 1) tr
      | .return r => some r
    else
      some ⟨"", 0, some ("Mistral request failed after " ++ toString maxRetries ++ " attempts"),
        tr⟩

/-- Go `MistralAPI(text, apiKey)`, run in the world `w`. -/
def MistralAPI (w : MistralWorld) (text : String) : Option Run :=
  let model := if w.MISTRAL_MODEL = "" then "mistral-large-latest" else w.MISTRAL_MODEL
  let useProxy := w.USE_PROXY = "true"
  let proxyAddr := if w.PROXY_ADDR = "" then "127.0.0.1:10808" else w.PROXY_ADDR
  let tr : List Event := [.checkIP]
  match (if useProxy then w.SOCKS5 proxyAddr else none) with
  | some err => some ⟨"", 0, some ("setup SOCKS5 proxy: " ++ err), tr⟩
  | none =>
  match w.Marshal model (prompt text) with
  | .error err => some ⟨"", 0, some ("marshal payload: " ++ err), tr⟩
  | .ok _body =>
  let maxRetries := 3
  retryLoop w maxRetries (maxRetries + 1) 1 tr

/-- The numbers of the iterations of the retry loop started in a trace, in order. -/
def attemptsOf (tr : List Event) : List Nat :=
  tr.filterMap (fun e => match e with
    | .attempt n => some n
    | _ => none)

/-- The durations of the calls of `time.Sleep` in a trace, in order. -/
def sleepsOf (tr : List Event) : List Duration :=
  tr.filterMap (fun e => match e with
    | .sleep d => some d
    | _ => none)

/-- The iterations started and the sleeps of a trace, in order. -/
def schedule (tr : List Event) : List Event :=
  tr.filter (fun e => match e with
    | .attempt _ => true
    | .sleep _ => true
    | _ => false)

/-- An HTTP answer to an attempt, read without error. -/
def answer (status : Int) (body : String) : Attempt :=
  ⟨none, .ok ⟨status, body, none⟩, none, 7⟩

/-- A toy decoder: the body `ok:c` is one choice with content `c`, the body `err:m` is
the error message `m`, the body `ok` is a response with neither, and any other body
fails to decode. -/
def decodeToy (body : String) : Except String MistralResponse :=
  match body.data with
  | 'o' :: 'k' :: ':' :: c => .ok ⟨[⟨⟨⟨c⟩, "assistant"⟩⟩], ⟨"", ""⟩⟩
  | 'e' :: 'r' :: 'r' :: ':' :: m => .ok ⟨[], ⟨⟨m⟩, "invalid_request"⟩⟩
  | ['o', 'k'] => .ok ⟨[], ⟨"", ""⟩⟩
  | _ => .error "invalid character"

/-- A world for `MistralAPI` without proxy, with the given attempts and the toy decoder. -/
def mistralWorldOf (attempts : Nat → Attempt) : MistralWorld where
  MISTRAL_MODEL := ""
  USE_PROXY := ""
  PROXY_ADDR := ""
  SOCKS5 := fun _ => none
  Marshal := fun _ content => .ok content
  attempts := attempts
  Unmarshal := decodeToy

/-- Attempts 1 and 2 answer with status 503, attempt 3 with a valid content. -/
def twoFailuresThenValid : Nat → Attempt := fun n =>
  if n = 3 then answer 200 "ok: fixed text " else answer 503 "unavailable"

/-- Every attempt answers with HTTP 200 and the embedded error message `bad key`. -/
def embeddedAtFirst : Nat → Attempt := fun _ => answer 200 "err:bad key"

/-! ## `logTiming` and `ProcessImage` -/

/-- Outcomes of everything `ProcessImage` and `logTiming` obtain from outside. -/
structure PipelineWorld where
  /-- The world of the call of `YandexOCR`. -/
  ocr : OCRWorld
  /-- The world of the call of `MistralAPI`. -/
  mistral : MistralWorld
  /-- Value of `time.Since(startTotal)`. -/
  totalSince : Duration
  /-- Value of `time.Now().Format(time.RFC3339)` in `logTiming`. -/
  Now : String
  /-- The formatting of a number of seconds by the verb `%.2f`. -/
  formatSeconds : Duration → String
  /-- Error of `os.OpenFile("timing.log", ...)`. -/
  OpenFile : Option String
  /-- Error of `f.WriteString(logEntry)`: the part of the entry that reached the file
  before the error, and the error. -/
  WriteString : Option (String × String)

/-- The value of `logEntry` in `logTiming`. -/
def logEntryOf (w : PipelineWorld) (timing : Timing) : String :=
  "[" ++ w.Now ++ "] OCR: " ++ w.formatSeconds timing.OCRTime ++ " sec, Mistral: " ++
    w.formatSeconds timing.GPTTime ++ " sec, Total: " ++ w.formatSeconds timing.TotalTime ++
    " sec\n"

/-- Go `logTiming(timing)`: its effects, and the entries of `timing.log` after the call,
given those before it. -/
def logTiming (w : PipelineWorld) (timing : Timing) (log : List String) :
    List Event × List String :=
  let logEntry := logEntryOf w timing
  let tr : List Event := [.openAppend "timing.log"]
  match w.OpenFile with
  | some _ => (tr, log)
  | none =>
  let tr := tr ++ [.writeString logEntry]
  match w.WriteString with
  | some (written, _) => (tr, if written = "" then log else log ++ [written])
  | none => (tr, log ++ [logEntry])

/-- The four results of `ProcessImage`, the effects of the call and the entries of
`timing.log` after it. -/
structure Outcome where
  ocrText : String
  gptText : String
  timing : Timing
  err : Option String
  trace : List Event
  log : List String
deriving DecidableEq, Repr

/-- Go `ProcessImage(imagePath, folderID, iamToken, mistralAPIKey)`, run in the world `w`
with the entries `log` in `timing.log`; `none` when the fuel of the retry loop does not
suffice. -/
def ProcessImage (w : PipelineWorld) (log : List String) : Option Outcome :=
  let ocr := YandexOCR w.ocr
  let ocrText := ocr.text
  let ocrTime := ocr.seconds
  match ocr.err with
  | some err => some ⟨"", "", ⟨ocrTime, 0, 0⟩, some ("OCR: " ++ err), ocr.trace, log⟩
  | none =>
  match MistralAPI w.mistral ocrText with
  | none => none
  | some gpt =>
  let gptText := gpt.text
  let gptTime := gpt.seconds
  match gpt.err with
  | some err =>
    some ⟨ocrText, "", ⟨ocrTime, gptTime, 0⟩, some ("Mistral: " ++ err),
      ocr.trace ++ gpt.trace, log⟩
  | none =>
  let totalTime := w.totalSince
  let timing : Timing := ⟨ocrTime, gptTime, totalTime⟩
  let logged := logTiming w timing log
  some ⟨ocrText, gptText, timing, none, ocr.trace ++ gpt.trace ++ logged.1, logged.2⟩

/-- A world for `ProcessImage` in which `timing.log` is opened and written. -/
def pipelineWorldOf (ocr : OCRWorld) (mistral : MistralWorld) : PipelineWorld where
  ocr := ocr
  mistral := mistral
  totalSince := 12
  Now := "2025-01-01T00:00:00Z"
  formatSeconds := fun _ => "0.00"
  OpenFile := none
  WriteString := none

/-- The OCR service reads `privet mir`; the first attempt of the correction is valid. -/
def successWorld : PipelineWorld :=
  pipelineWorldOf (ocrWorldOf (ocrResponseOf "privet mir" []) 5)
    (mistralWorldOf (fun _ => answer 200 "ok:Privet, mir"))

/-- The OCR service reads a single space; every attempt of the correction answers 503. -/
def blankThenUnavailable : PipelineWorld :=
  pipelineWorldOf (ocrWorldOf (ocrResponseOf " " []) 5)
    (mistralWorldOf (fun _ => answer 503 "unavailable"))

/-! ## `handleImage` -/

/-- Go `UserSettings`: the settings of a chat. -/
structure UserSettings where
  Language : String
  Format : String
  Model : String
  Stage : String
deriving DecidableEq, Repr

/-- Go `DefaultSettings()`. -/
def DefaultSettings : UserSettings :=
  ⟨"Русский", "Простой текст", "Базовая (быстрая)", ""⟩

/-- Go `tr(chatID, key)`, for the interface language `lang` of the chat: the text under
`key` in the English or in the Russian table, empty when the key is absent. -/
def tr (lang key : String) : String :=
  let rus : String → String := fun key =>
    match key with
    | "start" => "Привет! Я помогу тебе распознать рукописный текст. Отправь фото!"
    | "help" => "Команды: /start, /help, /settings, /about"
    | "about" => "🤖 Я использую нейросеть для распознавания рукописного текста. Разработчик: Mikudayo Team"
    | "unknown_command" => "Неизвестная команда. Напиши /help."
    | "send_image" => "Пожалуйста, отправь изображение с рукописным текстом."
    | "settings_menu" => "⚙️ Настройки:"
    | "settings_instruction" => "Выбери, что хочешь изменить:"
    | "language" => "Язык интерфейса"
    | "format" => "Формат ответа"
    | "model" => "Модель"
    | "language_set" => "Язык интерфейса изменён на"
    | "format_set" => "Формат ответа установлен"
    | "model_set" => "Выбрана модель"
    | "error_image" => "Не удалось получить изображение."
    | "error_download" => "Ошибка загрузки изображения."
    | "error_save" => "Ошибка сохранения изображения."
    | "error_ocr" => "Ошибка при распознавании текста"
    | "error_config" => "Ошибка конфигурации: IAM_TOKEN или FOLDER_ID не установлены."
    | "pdf_not_supported" => "PDF пока не поддерживается."
    | "timing_header" => "Время выполнения:"
    | "ocr_time" => "OCR"
    | "gpt_time" => "DeepSeek"
    | "total_time" => "Общее"
    | "seconds" => "сек"
    | "ocr_result" => "Распознанный текст"
    | "gpt_result" => "Восстановленный текст"
    | _ => ""
  let en : String → String := fun key =>
    match key with
    | "start" => "Hello! I will help you recognize handwritten text. Just send a photo!"
    | "help" => "Commands: /start, /help, /settings, /about"
    | "about" => "🤖 I use a neural net to recognize handwritten text. Developer: Mikudayo Team"
    | "unknown_command" => "Unknown command. Type /help."
    | "send_image" => "Please send an image with handwritten text."
    | "settings_menu" => "⚙️ Settings:"
    | "settings_instruction" => "Choose what you\x27d like to change:"
    | "language" => "Interface language"
    | "format" => "Response format"
    | "model" => "Model"
    | "language_set" => "Language set to"
    | "format_set" => "Response format set to"
    | "model_set" => "Model set to"
    | "error_image" => "Failed to retrieve image."
    | "error_download" => "Error downloading image."
    | "error_save" => "Error saving image."
    | "error_ocr" => "Error recognizing text"
    | "error_config" => "Configuration error: IAM_TOKEN or FOLDER_ID not set."
    | "pdf_not_supported" => "PDF is not supported yet."
    | "timing_header" => "Execution time:"
    | "ocr_time" => "OCR"
    | "gpt_time" => "DeepSeek"
    | "total_time" => "Total"
    | "seconds" => "sec"
    | "ocr_result" => "Recognized text"
    | "gpt_result" => "Restored text"
    | _ => ""
  if lang = "Английский" then en key else rus key

/-- The replacement of the occurrences of `old`, a non-empty list, from left to right
and without overlap; `fuel` bounds the number of steps. -/
def replaceAllChars (old new : List Char) : Nat → List Char → List Char
  | 0, s => s
  | _ + 1, [] => []
  | fuel + 1, c :: cs =>
    if old.isPrefixOf (c :: cs) then
      new ++ replaceAllChars old new fuel ((c :: cs).drop old.length)
    else c :: replaceAllChars old new fuel cs

/-- Go `strings.ReplaceAll(s, old, new)`: `s` with the non-overlapping occurrences of
`old` replaced by `new`; an empty `old` matches before every character and at the end. -/
def ReplaceAll (s old new : String) : String :=
  if old = "" then ⟨new.data ++ (s.data.map (fun c => c :: new.data)).flatten⟩
  else ⟨replaceAllChars old.data new.data s.data.length s.data⟩

/-- The marker that the instruction asks the model to append to an illegible text. -/
def sentinelMarker : String := "слишком неразборчиво 9905148"

/-- The message that `handleImage` passes to `strings.ReplaceAll` for the marker. -/
def friendlyMessage : String :=
  "Текст слишком неразборчивый, попробуйте сфотографировать получше и повторите попытку."

/-- The bytes of a document sent to the chat. -/
inductive FileBytes where
  /-- The conversion `[]byte(s)` of a string. -/
  | ofString (s : String)
  /-- The bytes `buf.Bytes()` of the buffer the PDF was written to. -/
  | ofBuffer (bytes : List (Fin 256))
deriving DecidableEq, Repr

/-- An argument of `bot.Send`. -/
inductive Chattable where
  /-- The value `tgbotapi.NewMessage(chatID, text)`. -/
  | message (chatID : Int) (text : String)
  /-- The value `tgbotapi.NewDocument(chatID, tgbotapi.FileBytes{Name, Bytes})`. -/
  | document (chatID : Int) (name : String) (bytes : FileBytes)
deriving DecidableEq, Repr

/-- Outcomes of everything `handleImage` obtains from outside. -/
structure HandlerWorld where
  /-- The field `msg.Chat.ID`. -/
  chatID : Int
  /-- The fields `FileID` of the elements of `msg.Photo`. -/
  Photo : List String
  /-- Result of `bot.GetFileDirectURL(photo.FileID)`. -/
  GetFileDirectURL : String → Except String String
  /-- Error of `http.Get(fileURL)`. -/
  Get : String → Option String
  /-- Error of `os.Create(tmpPath)`. -/
  Create : Option String
  /-- Error of `io.Copy(out, resp.Body)`. -/
  Copy : Option String
  /-- The environment variable `IAM_TOKEN`. -/
  IAM_TOKEN : String
  /-- The environment variable `FOLDER_ID`. -/
  FOLDER_ID : String
  /-- The environment variable `MISTRAL_API_KEY`. -/
  MISTRAL_API_KEY : String
  /-- The world of the call of `ProcessImage`. -/
  pipeline : PipelineWorld
  /-- The bytes that `pdf.Output(&buf)` writes for a page with the given text, and its
  error. -/
  Output : String → List (Fin 256) × Option String

/-- What a call of `handleImage` did. -/
inductive Handled where
  /-- The index expression `msg.Photo[len(msg.Photo)-1]` was out of range. -/
  | panicked
  /-- The call returned: the arguments of its calls of `bot.Send`, in order, the entries
  of `timing.log` and the effects of the pipeline. -/
  | done (sent : List Chattable) (log : List String) (trace : List Event)
deriving DecidableEq, Repr

/-- The arguments of the calls of `bot.Send`. -/
def Handled.sent : Handled → List Chattable
  | .panicked => []
  | .done sent _ _ => sent

/-- The value of `responseMsg` at the `switch` of `handleImage`. -/
def responseMsgOf (lang gptText : String) (err : Option String) : String :=
  let responseMsg := ""
  let responseMsg :=
    if gptText ≠ "" then
      let responseMsg := responseMsg ++ gptText
      let _ := ReplaceAll responseMsg sentinelMarker friendlyMessage
      responseMsg
    else responseMsg
  match err with
  | some err => responseMsg ++ ("\n\n" ++ tr lang "error_ocr" ++ ": " ++ err)
  | none => responseMsg

/-- The `switch format` of `handleImage`: the arguments of its calls of `bot.Send`. -/
def sendResult (w : HandlerWorld) (format gptText responseMsg : String) : List Chattable :=
  if format = "TXT-файл" then
    if gptText ≠ "" then [.document w.chatID "result.txt" (.ofString gptText)] else []
  else if format = "PDF-файл" then
    if gptText ≠ "" then
      let out := w.Output gptText
      let failure : List Chattable :=
        match out.2 with
        | some _ => [.message w.chatID "Ошибка при создании PDF"]
        | none => []
      failure ++ [.document w.chatID "result.pdf" (.ofBuffer out.1)]
    else []
  else
    if responseMsg ≠ "" then [.message w.chatID responseMsg] else []

/-- Go `handleImage(bot, msg)`, run in the world `w` for a chat with the settings
`settings` and the entries `log` in `timing.log`; `none` when the fuel of the retry loop
does not suffice. -/
def handleImage (w : HandlerWorld) (settings : UserSettings) (log : List String) :
    Option Handled :=
  let chatID := w.chatID
  match w.Photo.getLast? with
  | none => some .panicked
  | some photo =>
  match w.GetFileDirectURL photo with
  | .error _ => some (.done [.message chatID (tr settings.Language "error_image")] log [])
  | .ok fileURL =>
  match w.Get fileURL with
  | some _ => some (.done [.message chatID (tr settings.Language "error_download")] log [])
  | none =>
  match w.Create with
  | some _ => some (.done [.message chatID (tr settings.Language "error_save")] log [])
  | none =>
  match w.Copy with
  | some _ => some (.done [.message chatID (tr settings.Language "error_save")] log [])
  | none =>
  if w.IAM_TOKEN = "" ∨ w.FOLDER_ID = "" ∨ w.MISTRAL_API_KEY = "" then
    some (.done [.message chatID (tr settings.Language "error_config")] log [])
  else
  match ProcessImage w.pipeline log with
  | none => none
  | some o =>
  let responseMsg := responseMsgOf settings.Language o.gptText o.err
  let format := settings.Format
  some (.done (sendResult w format o.gptText responseMsg) o.log o.trace)

/-- The run of `handleImage` reaches the call of `ProcessImage`. -/
def PipelineReached (w : HandlerWorld) : Prop :=
  ∃ photo fileURL, w.Photo.getLast? = some photo ∧ w.GetFileDirectURL photo = .ok fileURL ∧
    w.Get fileURL = none ∧ w.Create = none ∧ w.Copy = none ∧
    w.IAM_TOKEN ≠ "" ∧ w.FOLDER_ID ≠ "" ∧ w.MISTRAL_API_KEY ≠ ""

/-- A world for `handleImage` in which the photo is fetched and stored and the
credentials are set. -/
def handlerWorldOf (pipeline : PipelineWorld) : HandlerWorld where
  chatID := 42
  Photo := ["small", "large"]
  GetFileDirectURL := fun fileID => .ok ("https://api.telegram.org/file/" ++ fileID)
  Get := fun _ => none
  Create := none
  Copy := none
  IAM_TOKEN := "t1.token"
  FOLDER_ID := "b1gfolder"
  MISTRAL_API_KEY := "key"
  pipeline := pipeline
  Output := fun _ => ([37, 80, 68, 70], none)

/-- The OCR service reads `abv`; the correction answers `abv` followed by the marker. -/
def illegibleWorld : PipelineWorld :=
  pipelineWorldOf (ocrWorldOf (ocrResponseOf "abv" []) 5)
    (mistralWorldOf (fun _ => answer 200 "ok:abv слишком неразборчиво 9905148"))

/-- The OCR service answers with the error message `quota exceeded`. -/
def quotaWorld : PipelineWorld :=
  pipelineWorldOf (ocrWorldOf quotaResponse 5)
    (mistralWorldOf (fun _ => answer 200 "ok:unused"))

/-! ## The line of the timing log, in the words of the specification -/

/-- The line `[<timestamp>] <l₁>: <f₁> sec, <l₂>: <f₂> sec, <l₃>: <f₃> sec` and a
newline. -/
def timingLine (timestamp l₁ f₁ l₂ f₂ l₃ f₃ : String) : String :=
  "[" ++ timestamp ++ "] " ++ l₁ ++ ": " ++ f₁ ++ " sec, " ++ l₂ ++ ": " ++ f₂ ++
    " sec, " ++ l₃ ++ ": " ++ f₃ ++ " sec" ++ "\n"

/-- An event of a call of `MistralAPI`. -/
def isMistralEvent : Event → Bool
  | .checkIP => true
  | .attempt _ => true
  | .sleep _ => true
  | .newRequest url => url == mistralURL
  | .send url => url == mistralURL
  | .writeFile name _ => name == "mistral_response.json"
  | _ => false

/-! ## The outcomes of an attempt, in the words of the specification -/

/-- Attempt `k` ends in one of the failures that trigger a new attempt: the request is
created and then sending fails, or reading the body fails, or the status is not 200,
or the body does not decode, or it decodes without error message and the first choice
is missing or has empty content. -/
def Retriable (w : MistralWorld) (k : Nat) : Prop :=
  (w.attempts k).NewRequest = none ∧
  ((∃ err, (w.attempts k).Do = .error err) ∨
   (∃ resp err, (w.attempts k).Do = .ok resp ∧ resp.readErr = some err) ∨
   (∃ resp, (w.attempts k).Do = .ok resp ∧ resp.StatusCode ≠ 200) ∨
   (∃ resp err, (w.attempts k).Do = .ok resp ∧ w.Unmarshal resp.body = .error err) ∨
   (∃ resp m, (w.attempts k).Do = .ok resp ∧ w.Unmarshal resp.body = .ok m ∧
      m.Error.Message = "" ∧
      (m.Choices = [] ∨ ∃ choice rest, m.Choices = choice :: rest ∧
        choice.Message.Content = "")))

/-- Attempt `k` yields HTTP 200 with a body that decodes to `m`, whose error message is
not empty. -/
def EmbeddedError (w : MistralWorld) (k : Nat) (m : MistralResponse) : Prop :=
  (w.attempts k).NewRequest = none ∧
  ∃ resp, (w.attempts k).Do = .ok resp ∧ resp.readErr = none ∧ resp.StatusCode = 200 ∧
    w.Unmarshal resp.body = .ok m ∧ m.Error.Message ≠ ""

/-- Attempt `k` is valid: HTTP 200, no error object, and the non-empty content `c` in the
first choice. -/
def ValidAnswer (w : MistralWorld) (k : Nat) (c : String) : Prop :=
  (w.attempts k).NewRequest = none ∧
  ∃ resp m choice rest, (w.attempts k).Do = .ok resp ∧ resp.readErr = none ∧
    resp.StatusCode = 200 ∧ w.Unmarshal resp.body = .ok m ∧ m.Error.Message = "" ∧
    m.Choices = choice :: rest ∧ choice.Message.Content = c ∧ c ≠ ""

/-- The retry loop of `MistralAPI` is reached: the proxy, when used, is set up and the
payload is encoded. -/
def LoopReached (w : MistralWorld) (text : String) : Prop :=
  (if w.USE_PROXY = "true" then
      w.SOCKS5 (if w.PROXY_ADDR = "" then "127.0.0.1:10808" else w.PROXY_ADDR)
    else none) = none ∧
  ∃ body, w.Marshal (if w.MISTRAL_MODEL = "" then "mistral-large-latest" else w.MISTRAL_MODEL)
    (prompt text) = .ok body

/-- The iterations and sleeps of a loop that starts attempts `k`, ..., `k + n`. -/
def scheduleFrom (k : Nat) : Nat → List Event
  | 0 => [.attempt k]
  | n + 1 => .attempt k :: .sleep (backoff k) :: scheduleFrom (k + 1) n

/-! ## The text of a response, in the words of the specification -/

/-- All lines of all blocks, in order. -/
def allLines (blocks : List OCRBlock) : List OCRLine :=
  (blocks.map (fun block => block.Lines)).flatten

/-- The word texts of a line. -/
def wordTexts (line : OCRLine) : List String :=
  line.Words.map (fun word => word.Text)

/-- The reconstruction as the specification words it: the word texts of each line joined
by single spaces, the lines joined by newlines, the whole trimmed. -/
def joinedText (blocks : List OCRBlock) : String :=
  TrimSpace (String.intercalate "\n"
    ((allLines blocks).map (fun line => String.intercalate " " (wordTexts line))))

/-- A line as the code renders it: its word texts joined by single spaces, one more
space when the line has a word, and a newline. -/
def terminatedLine (line : OCRLine) : String :=
  String.intercalate " " (wordTexts line) ++ (if line.Words = [] then "" else " ") ++ "\n"

/-- The reconstruction as the code computes it: every line terminated, the whole trimmed. -/
def terminatedText (blocks : List OCRBlock) : String :=
  TrimSpace (String.join ((allLines blocks).map terminatedLine))

/-! ## Lemmas on strings -/

theorem foldl_append_eq_join (l : List String) (acc : String) :
    l.foldl (fun r s => r ++ s) acc = acc ++ String.join l := by
  induction l generalizing acc with
  | nil => simp [String.join]
  | cons a l ih =>
    simp only [List.foldl_cons, String.join]
    rw [ih, ih ("" ++ a), String.empty_append, String.append_assoc]

theorem join_cons (a : String) (l : List String) :
    String.join (a :: l) = a ++ String.join l := by
  simp only [String.join, List.foldl_cons]
  rw [foldl_append_eq_join, String.empty_append]
  rfl

theorem join_append (l₁ l₂ : List String) :
    String.join (l₁ ++ l₂) = String.join l₁ ++ String.join l₂ := by
  induction l₁ with
  | nil => simp [String.join]
  | cons a l ih => rw [List.cons_append, join_cons, join_cons, ih, String.append_assoc]

theorem intercalate_go_eq (sep acc : String) (l : List String) :
    String.intercalate.go acc sep l = acc ++ String.join (l.map (fun s => sep ++ s)) := by
  induction l generalizing acc with
  | nil => simp [String.intercalate.go, String.join]
  | cons a l ih =>
    rw [String.intercalate.go, ih, List.map_cons, join_cons]
    simp only [String.append_assoc]

/-- Appending the separator after every element is joining with the separator and
appending it once more, unless there is no element. -/
theorem join_terminated (sep : String) (l : List String) :
    String.join (l.map (fun s => s ++ sep)) =
      String.intercalate sep l ++ (if l = [] then "" else sep) := by
  cases l with
  | nil => simp [String.join, String.intercalate]
  | cons a l =>
    simp only [String.intercalate, intercalate_go_eq, List.map_cons, join_cons]
    simp only [if_neg (List.cons_ne_nil a l)]
    induction l generalizing a with
    | nil => simp [String.join]
    | cons b l ih =>
      simp only [List.map_cons, join_cons]
      rw [ih b]
      simp only [String.append_assoc]

/-! ## Lemmas on the reconstruction loops -/

theorem appendWords_eq (text : String) (words : List OCRWord) :
    appendWords text words =
      text ++ String.join (words.map (fun word => word.Text ++ " ")) := by
  induction words generalizing text with
  | nil => simp [appendWords, String.join]
  | cons w ws ih =>
    simp only [appendWords, List.foldl_cons, List.map_cons, join_cons] at ih ⊢
    rw [ih, String.append_assoc]

theorem appendWords_eq_line (text : String) (line : OCRLine) :
    appendWords text line.Words ++ "\n" = text ++ terminatedLine line := by
  rw [appendWords_eq, terminatedLine, wordTexts]
  have h := join_terminated " " (line.Words.map (fun word => word.Text))
  rw [List.map_map] at h
  have h2 : ((fun s => s ++ " ") ∘ fun (word : OCRWord) => word.Text) =
      fun word => word.Text ++ " " := rfl
  rw [h2] at h
  rw [h]
  simp [String.append_assoc]

theorem appendLines_eq (text : String) (lines : List OCRLine) :
    appendLines text lines = text ++ String.join (lines.map terminatedLine) := by
  induction lines generalizing text with
  | nil => simp [appendLines, String.join]
  | cons l ls ih =>
    simp only [appendLines, List.foldl_cons, List.map_cons, join_cons] at ih ⊢
    rw [ih, appendWords_eq_line, String.append_assoc]

theorem appendBlocks_eq (text : String) (blocks : List OCRBlock) :
    appendBlocks text blocks = text ++ String.join ((allLines blocks).map terminatedLine) := by
  induction blocks generalizing text with
  | nil => simp [appendBlocks, allLines, String.join]
  | cons b bs ih =>
    simp only [appendBlocks, List.foldl_cons] at ih ⊢
    rw [ih, appendLines_eq]
    simp only [allLines, List.map_cons, List.flatten_cons, List.map_append, join_append,
      String.append_assoc]

theorem trimChars_nil : trimChars [] = [] := rfl

theorem TrimSpace_empty : TrimSpace "" = "" := rfl

/-! ## Lemmas on `YandexOCR` -/

/-- The run of `YandexOCR` once the response is decoded. -/
theorem YandexOCR_of_parsed (w : OCRWorld) (ocrResp : OCRResponse) (h : ParsedOCR w ocrResp) :
    ∃ body, YandexOCR w =
      if ocrResp.Error.Message ≠ "" then
        ⟨"", w.since, some ("OCR error: " ++ ocrResp.Error.Message), ocrTrace body⟩
      else if obtainedText ocrResp = "" then
        ⟨"", w.since, some "empty text detected", ocrTrace body⟩
      else ⟨TrimSpace (obtainedText ocrResp), w.since, none, ocrTrace body⟩ := by
  obtain ⟨size, resp, h1, h2, h3, h4, h5, h6, ⟨body, h7⟩, h8, h9, h10, h11, h12, h13⟩ := h
  refine ⟨resp.body, ?_⟩
  simp only [YandexOCR, h1, h2, h3, h4, h5, h6, h7, h8, h9, h10, h11, h12, h13]
  simp [ocrTrace]

theorem ocrWorldOf_parsed (ocrResp : OCRResponse) (since : Duration) :
    ParsedOCR (ocrWorldOf ocrResp since) ocrResp :=
  ⟨4, ⟨200, "{}", none⟩, rfl, by decide, rfl, rfl, by simp [ocrWorldOf],
    by simp [ocrWorldOf], ⟨_, rfl⟩, rfl, rfl, rfl, rfl, rfl, rfl⟩

/-! ## Theorems on `YandexOCR` -/

/-- C1 (as amended): for every decoded OCR response (HTTP 200, no error message) whose
`FullText` is empty, in particular when `Blocks` is non-empty, the text `YandexOCR`
returns is the concatenation, over the lines of all blocks in order, of the word texts of the line
joined by single spaces, one more space when the line has a word, and a newline, the
whole trimmed of leading and trailing white space. -/
theorem YandexOCR_reconstruction_terminated (w : OCRWorld) (ocrResp : OCRResponse)
    (hparsed : ParsedOCR w ocrResp) (herr : ocrResp.Error.Message = "")
    (hfull : ocrResp.Result.TextAnnotation.FullText = "") :
    (YandexOCR w).text = terminatedText ocrResp.Result.TextAnnotation.Blocks := by
  obtain ⟨body, h⟩ := YandexOCR_of_parsed w ocrResp hparsed
  have hob : obtainedText ocrResp =
      String.join ((allLines ocrResp.Result.TextAnnotation.Blocks).map terminatedLine) := by
    simp only [obtainedText, hfull, if_true]
    rw [appendBlocks_eq, String.empty_append]
  rw [h, terminatedText, ← hob]
  simp only [herr, ne_eq, not_true_eq_false, if_false]
  split
  · next h0 => rw [h0]; rfl
  · rfl

/-- Witness of C1 (as amended): two lines, `a b` and `c`. -/
theorem YandexOCR_reconstruction_terminated_witness :
    (YandexOCR (ocrWorldOf (ocrResponseOf "" [["a", "b"], ["c"]]) 5)).text =
      terminatedText (ocrResponseOf "" [["a", "b"], ["c"]]).Result.TextAnnotation.Blocks :=
  YandexOCR_reconstruction_terminated _ _ (ocrWorldOf_parsed _ _) rfl rfl

/-- Counterexample to C1 as stated: for the lines `a` and `b` of one block, with empty
`FullText` and no error message, `YandexOCR` returns `a`, a space, a newline, `b`, which
is not the word texts joined by spaces and the lines joined by newlines. -/
theorem YandexOCR_reconstruction_not_joined :
    ParsedOCR (ocrWorldOf (ocrResponseOf "" [["a"], ["b"]]) 5) (ocrResponseOf "" [["a"], ["b"]]) ∧
    (ocrResponseOf "" [["a"], ["b"]]).Error.Message = "" ∧
    (ocrResponseOf "" [["a"], ["b"]]).Result.TextAnnotation.FullText = "" ∧
    (ocrResponseOf "" [["a"], ["b"]]).Result.TextAnnotation.Blocks ≠ [] ∧
    (YandexOCR (ocrWorldOf (ocrResponseOf "" [["a"], ["b"]]) 5)).text = "a \nb" ∧
    joinedText (ocrResponseOf "" [["a"], ["b"]]).Result.TextAnnotation.Blocks = "a\nb" ∧
    (YandexOCR (ocrWorldOf (ocrResponseOf "" [["a"], ["b"]]) 5)).text ≠
      joinedText (ocrResponseOf "" [["a"], ["b"]]).Result.TextAnnotation.Blocks :=
  ⟨ocrWorldOf_parsed _ _, rfl, rfl, by decide, by decide, by decide, by decide⟩

/-- C2 (the code at the failing input): for a decoded response with HTTP 200, no error
message and `FullText` a single space, the text obtained is empty after trimming, and
`YandexOCR` returns the empty string with a nil error. -/
theorem YandexOCR_blank_text_nil_error :
    ParsedOCR (ocrWorldOf (ocrResponseOf " " []) 5) (ocrResponseOf " " []) ∧
    (ocrResponseOf " " []).Error.Message = "" ∧
    TrimSpace (obtainedText (ocrResponseOf " " [])) = "" ∧
    (YandexOCR (ocrWorldOf (ocrResponseOf " " []) 5)).text = "" ∧
    (YandexOCR (ocrWorldOf (ocrResponseOf " " []) 5)).err = none :=
  ⟨ocrWorldOf_parsed _ _, rfl, by decide, by decide, by decide⟩

/-- C3: for every decoded OCR response (HTTP 200, no error message) whose `FullText` is
non-empty, `YandexOCR` returns `FullText` trimmed of leading and trailing white space,
with a nil error, whatever `Blocks` holds. -/
theorem YandexOCR_fullText_trimmed (w : OCRWorld) (ocrResp : OCRResponse)
    (hparsed : ParsedOCR w ocrResp) (herr : ocrResp.Error.Message = "")
    (hfull : ocrResp.Result.TextAnnotation.FullText ≠ "") :
    (YandexOCR w).text = TrimSpace ocrResp.Result.TextAnnotation.FullText ∧
    (YandexOCR w).err = none ∧ (YandexOCR w).seconds = w.since := by
  obtain ⟨body, h⟩ := YandexOCR_of_parsed w ocrResp hparsed
  have hob : obtainedText ocrResp = ocrResp.Result.TextAnnotation.FullText := by
    simp only [obtainedText, hfull, if_false]
  rw [h, hob]
  simp [herr, hfull]

/-- Witness of C3: a full text with surrounding blanks, next to blocks with other words. -/
theorem YandexOCR_fullText_trimmed_witness :
    (YandexOCR (ocrWorldOf (ocrResponseOf " hello world\n" [["x"], ["y"]]) 5)).text =
      TrimSpace " hello world\n" ∧
    (YandexOCR (ocrWorldOf (ocrResponseOf " hello world\n" [["x"], ["y"]]) 5)).err = none ∧
    (YandexOCR (ocrWorldOf (ocrResponseOf " hello world\n" [["x"], ["y"]]) 5)).seconds = 5 :=
  YandexOCR_fullText_trimmed _ _ (ocrWorldOf_parsed _ _) rfl (by decide)

/-- C9: for every OCR response with HTTP 200 whose body decodes with a non-empty
`error.message` `m`, `YandexOCR` returns the empty text and the error
`OCR error: ` followed by `m`, whatever `FullText` and `Blocks` hold. -/
theorem YandexOCR_embedded_error (w : OCRWorld) (ocrResp : OCRResponse)
    (hparsed : ParsedOCR w ocrResp) (herr : ocrResp.Error.Message ≠ "") :
    (YandexOCR w).text = "" ∧
    (YandexOCR w).err = some ("OCR error: " ++ ocrResp.Error.Message) := by
  obtain ⟨body, h⟩ := YandexOCR_of_parsed w ocrResp hparsed
  rw [h]
  simp [herr]

/-- Witness of C9: the response with the error message `quota exceeded`. -/
theorem YandexOCR_embedded_error_witness :
    (YandexOCR (ocrWorldOf quotaResponse 5)).text = "" ∧
    (YandexOCR (ocrWorldOf quotaResponse 5)).err = some ("OCR error: " ++ "quota exceeded") :=
  YandexOCR_embedded_error _ _ (ocrWorldOf_parsed _ _) (by decide)

/-- C10: when the image file exists with size 0, `YandexOCR` returns the empty text, the
number 0 and the error `image file is empty`, and its only effect is the call of
`os.Stat`: no HTTP request is constructed or sent. -/
theorem YandexOCR_empty_file (w : OCRWorld) (hsize : w.Stat = .ok 0) :
    YandexOCR w = ⟨"", 0, some "image file is empty", [.statFile]⟩ ∧
    ∀ url, Event.newRequest url ∉ (YandexOCR w).trace ∧ Event.send url ∉ (YandexOCR w).trace := by
  have h : YandexOCR w = ⟨"", 0, some "image file is empty", [.statFile]⟩ := by
    simp [YandexOCR, hsize]
  refine ⟨h, fun url => ?_⟩
  rw [h]
  simp

/-- Witness of C10: a world whose image file has size 0 and whose server would answer. -/
theorem YandexOCR_empty_file_witness :
    YandexOCR { ocrWorldOf quotaResponse 5 with Stat := .ok 0 } =
      ⟨"", 0, some "image file is empty", [.statFile]⟩ ∧
    Event.newRequest ocrURL ∉ (YandexOCR { ocrWorldOf quotaResponse 5 with Stat := .ok 0 }).trace ∧
    Event.send ocrURL ∉ (YandexOCR { ocrWorldOf quotaResponse 5 with Stat := .ok 0 }).trace :=
  ⟨(YandexOCR_empty_file { ocrWorldOf quotaResponse 5 with Stat := .ok 0 } rfl).1,
    (YandexOCR_empty_file { ocrWorldOf quotaResponse 5 with Stat := .ok 0 } rfl).2 ocrURL⟩

/-! ## Lemmas on the retry loop -/

theorem schedule_append (tr₁ tr₂ : List Event) :
    schedule (tr₁ ++ tr₂) = schedule tr₁ ++ schedule tr₂ := by
  simp [schedule]

theorem attemptsOf_schedule (tr : List Event) : attemptsOf (schedule tr) = attemptsOf tr := by
  induction tr with
  | nil => rfl
  | cons e tr ih =>
    cases e <;> simp_all [attemptsOf, schedule, List.filter_cons, List.filterMap_cons]

theorem sleepsOf_schedule (tr : List Event) : sleepsOf (schedule tr) = sleepsOf tr := by
  induction tr with
  | nil => rfl
  | cons e tr ih =>
    cases e <;> simp_all [sleepsOf, schedule, List.filter_cons, List.filterMap_cons]

/-- An iteration ends with `continue` exactly when it ends in a retriable failure and
fewer than `maxRetries` attempts have been made. -/
theorem attemptBody_continue_iff (w : MistralWorld) (maxRetries k : Nat) (tr : List Event) :
    (∃ tr', attemptBody w maxRetries k tr = .continue tr') ↔
      Retriable w k ∧ k < maxRetries := by
  cases hN : (w.attempts k).NewRequest with
  | some err => simp [attemptBody, Retriable, sleepOrReturn, hN]
  | none =>
    cases hD : (w.attempts k).Do with
    | error err =>
      by_cases hk : k < maxRetries <;> simp [attemptBody, Retriable, sleepOrReturn, hN, hD, hk]
    | ok resp =>
      cases hR : resp.readErr with
      | some err =>
        by_cases hk : k < maxRetries <;>
          simp [attemptBody, Retriable, sleepOrReturn, hN, hD, hk, hR]
      | none =>
        by_cases hS : resp.StatusCode = 200
        · cases hU : w.Unmarshal resp.body with
          | error err =>
            by_cases hk : k < maxRetries <;>
              simp [attemptBody, Retriable, sleepOrReturn, hN, hD, hk, hR, hS, hU]
          | ok m =>
            by_cases hM : m.Error.Message = ""
            · cases hC : m.Choices with
              | nil =>
                by_cases hk : k < maxRetries <;>
                  simp [attemptBody, Retriable, sleepOrReturn, hN, hD, hk, hR, hS, hU, hM, hC]
              | cons choice rest =>
                by_cases hE : choice.Message.Content = "" <;>
                by_cases hk : k < maxRetries <;>
                  simp [attemptBody, Retriable, sleepOrReturn, hN, hD, hk, hR, hS, hU, hM, hC, hE]
            · simp [attemptBody, Retriable, sleepOrReturn, hN, hD, hR, hS, hU, hM]
        · by_cases hk : k < maxRetries <;>
            simp [attemptBody, Retriable, sleepOrReturn, hN, hD, hk, hR, hS]

/-- The iterations and sleeps that an iteration adds to the trace. -/
theorem attemptBody_schedule (w : MistralWorld) (maxRetries k : Nat) (tr : List Event) :
    match attemptBody w maxRetries k tr with
    | .continue tr' => schedule tr' = schedule tr ++ [.attempt k, .sleep (backoff k)]
    | .return r => schedule r.trace = schedule tr ++ [.attempt k] := by
  cases hN : (w.attempts k).NewRequest with
  | some err => simp [attemptBody, sleepOrReturn, hN, schedule]
  | none =>
    cases hD : (w.attempts k).Do with
    | error err =>
      by_cases hk : k < maxRetries <;> simp [attemptBody, sleepOrReturn, hN, hD, hk, schedule]
    | ok resp =>
      cases hR : resp.readErr with
      | some err =>
        by_cases hk : k < maxRetries <;>
          simp [attemptBody, sleepOrReturn, hN, hD, hk, hR, schedule]
      | none =>
        by_cases hS : resp.StatusCode = 200
        · cases hU : w.Unmarshal resp.body with
          | error err =>
            by_cases hk : k < maxRetries <;>
              simp [attemptBody, sleepOrReturn, hN, hD, hk, hR, hS, hU, schedule]
          | ok m =>
            by_cases hM : m.Error.Message = ""
            · cases hC : m.Choices with
              | nil =>
                by_cases hk : k < maxRetries <;>
                  simp [attemptBody, sleepOrReturn, hN, hD, hk, hR, hS, hU, hM, hC, schedule]
              | cons choice rest =>
                by_cases hE : choice.Message.Content = "" <;>
                by_cases hk : k < maxRetries <;>
                  simp [attemptBody, sleepOrReturn, hN, hD, hk, hR, hS, hU, hM, hC, hE,
                    schedule]
            · simp [attemptBody, sleepOrReturn, hN, hD, hR, hS, hU, hM, schedule]
        · by_cases hk : k < maxRetries <;>
            simp [attemptBody, sleepOrReturn, hN, hD, hk, hR, hS, schedule]

/-- An attempt with an embedded error message returns that error at once. -/
theorem attemptBody_embedded_error (w : MistralWorld) (maxRetries k : Nat) (tr : List Event)
    (m : MistralResponse) (h : EmbeddedError w k m) :
    ∃ r, attemptBody w maxRetries k tr = .return r ∧ r.text = "" ∧
      r.seconds = (w.attempts k).since ∧
      r.err = some ("Mistral error: " ++ m.Error.Message ++ " (type: " ++ m.Error.Typ ++ ")") := by
  obtain ⟨hN, resp, hD, hR, hS, hU, hM⟩ := h
  simp [attemptBody, hN, hD, hR, hS, hU, hM]

/-- A valid attempt returns its trimmed content. -/
theorem attemptBody_valid (w : MistralWorld) (maxRetries k : Nat) (tr : List Event)
    (c : String) (h : ValidAnswer w k c) :
    ∃ r, attemptBody w maxRetries k tr = .return r ∧ r.text = TrimSpace c ∧
      r.seconds = (w.attempts k).since ∧ r.err = none := by
  obtain ⟨hN, resp, m, choice, rest, hD, hR, hS, hU, hM, hC, hE, hne⟩ := h
  subst hE
  simp [attemptBody, hN, hD, hR, hS, hU, hM, hC, hne]

/-- The loop, given enough fuel, returns from some iteration `k + n`, after the
iterations `k`, ..., `k + n - 1` each ended in a retriable failure. -/
theorem retryLoop_spec (w : MistralWorld) (maxRetries : Nat) :
    ∀ (fuel k : Nat) (tr : List Event), k ≤ maxRetries → maxRetries < fuel + k →
      ∃ r n trn, retryLoop w maxRetries fuel k tr = some r ∧
        attemptBody w maxRetries (k + n) trn = .return r ∧ k + n ≤ maxRetries ∧
        schedule r.trace = schedule tr ++ scheduleFrom k n ∧
        ∀ j, k ≤ j → j < k + n → Retriable w j := by
  intro fuel
  induction fuel with
  | zero => intro k tr hk hf; omega
  | succ fuel ih =>
    intro k tr hk hf
    have hs := attemptBody_schedule w maxRetries k tr
    cases hB : attemptBody w maxRetries k tr with
    | «continue» tr' =>
      rw [hB] at hs
      have hc := (attemptBody_continue_iff w maxRetries k tr).mp ⟨tr', hB⟩
      obtain ⟨r, n, trn, h1, h2, h3, h4, h5⟩ := ih (k + 1) tr' (by omega) (by omega)
      refine ⟨r, n + 1, trn, ?_, ?_, by omega, ?_, ?_⟩
      · simp only [retryLoop, hk, if_true, hB]
        exact h1
      · rw [← h2]; congr 1; omega
      · rw [h4, hs]; simp [scheduleFrom]
      · intro j hj1 hj2
        by_cases hjk : j = k
        · subst hjk; exact hc.1
        · exact h5 j (by omega) (by omega)
    | «return» r =>
      rw [hB] at hs
      refine ⟨r, 0, tr, ?_, hB, hk, ?_, ?_⟩
      · simp only [retryLoop, hk, if_true, hB]
      · rw [hs]; rfl
      · intro j hj1 hj2; omega

theorem MistralAPI_of_loopReached (w : MistralWorld) (text : String)
    (h : LoopReached w text) : MistralAPI w text = retryLoop w 3 4 1 [.checkIP] := by
  obtain ⟨h1, body, h2⟩ := h
  simp only [MistralAPI, h1, h2]

theorem MistralAPI_of_not_loopReached (w : MistralWorld) (text : String)
    (h : ¬ LoopReached w text) :
    ∃ r, MistralAPI w text = some r ∧ r.text = "" ∧ r.err ≠ none ∧ r.trace = [.checkIP] := by
  cases h1 : (if w.USE_PROXY = "true" then
      w.SOCKS5 (if w.PROXY_ADDR = "" then "127.0.0.1:10808" else w.PROXY_ADDR)
    else none) with
  | some err => simp [MistralAPI, h1]
  | none =>
    cases h2 : w.Marshal (if w.MISTRAL_MODEL = "" then "mistral-large-latest"
        else w.MISTRAL_MODEL) (prompt text) with
    | error err => simp [MistralAPI, h1, h2]
    | ok body => exact absurd ⟨h1, body, h2⟩ h

/-- `MistralAPI` returns: either before the loop, or from an iteration `1 + n` of it
after `n` retriable failures. -/
theorem MistralAPI_spec (w : MistralWorld) (text : String) (h : LoopReached w text) :
    ∃ r n trn, MistralAPI w text = some r ∧ attemptBody w 3 (1 + n) trn = .return r ∧
      1 + n ≤ 3 ∧ schedule r.trace = scheduleFrom 1 n ∧
      ∀ j, 1 ≤ j → j < 1 + n → Retriable w j := by
  obtain ⟨r, n, trn, h1, h2, h3, h4, h5⟩ :=
    retryLoop_spec w 3 4 1 [.checkIP] (by omega) (by omega)
  refine ⟨r, n, trn, ?_, h2, h3, ?_, h5⟩
  · rw [MistralAPI_of_loopReached w text h, h1]
  · rw [h4]; rfl

theorem attemptsOf_scheduleFrom (k n : Nat) :
    attemptsOf (scheduleFrom k n) = List.range' k (n + 1) := by
  induction n generalizing k with
  | zero => rfl
  | succ n ih =>
    have h := ih (k + 1)
    simp only [attemptsOf, scheduleFrom, List.filterMap_cons] at h ⊢
    rw [h]
    rfl

theorem sleepsOf_scheduleFrom (k n : Nat) :
    sleepsOf (scheduleFrom k n) = (List.range' k n).map backoff := by
  induction n generalizing k with
  | zero => rfl
  | succ n ih =>
    have h := ih (k + 1)
    simp only [sleepsOf, scheduleFrom, List.filterMap_cons] at h ⊢
    rw [h]
    rfl

theorem backoff_one : backoff 1 = Second := by decide

theorem backoff_two : backoff 2 = 2 * Second := by decide

theorem embeddedError_not_retriable (w : MistralWorld) (k : Nat) (m : MistralResponse)
    (h : EmbeddedError w k m) : ¬ Retriable w k := by
  obtain ⟨hN, resp, hD, hR, hS, hU, hM⟩ := h
  rintro ⟨_, hr⟩
  simp [hD, hR, hS, hU, hM] at hr

theorem validAnswer_not_retriable (w : MistralWorld) (k : Nat) (c : String)
    (h : ValidAnswer w k c) : ¬ Retriable w k := by
  obtain ⟨hN, resp, m, choice, rest, hD, hR, hS, hU, hM, hC, hE, hne⟩ := h
  subst hE
  rintro ⟨_, hr⟩
  simp [hD, hR, hS, hU, hM, hC, hne] at hr

theorem not_retriable_of_return (w : MistralWorld) (maxRetries k : Nat) (tr : List Event)
    (r : Run) (h : attemptBody w maxRetries k tr = .return r) :
    ¬ (Retriable w k ∧ k < maxRetries) := by
  intro hc
  obtain ⟨tr', hc'⟩ := (attemptBody_continue_iff w maxRetries k tr).mpr hc
  rw [h] at hc'
  cases hc'

/-- An iteration that ends in a retriable failure and returns, returns the empty text
and an error. -/
theorem attemptBody_retriable_return (w : MistralWorld) (maxRetries k : Nat)
    (tr : List Event) :
    match attemptBody w maxRetries k tr with
    | .continue _ => True
    | .return r => Retriable w k → r.text = "" ∧ r.err ≠ none := by
  cases hN : (w.attempts k).NewRequest with
  | some err => simp [attemptBody, sleepOrReturn, Retriable, hN]
  | none =>
    cases hD : (w.attempts k).Do with
    | error err =>
      by_cases hk : k < maxRetries <;> simp [attemptBody, sleepOrReturn, hN, hD, hk]
    | ok resp =>
      cases hR : resp.readErr with
      | some err =>
        by_cases hk : k < maxRetries <;> simp [attemptBody, sleepOrReturn, hN, hD, hk, hR]
      | none =>
        by_cases hS : resp.StatusCode = 200
        · cases hU : w.Unmarshal resp.body with
          | error err =>
            by_cases hk : k < maxRetries <;>
              simp [attemptBody, sleepOrReturn, hN, hD, hk, hR, hS, hU]
          | ok m =>
            by_cases hM : m.Error.Message = ""
            · cases hC : m.Choices with
              | nil =>
                by_cases hk : k < maxRetries <;>
                  simp [attemptBody, sleepOrReturn, hN, hD, hk, hR, hS, hU, hM, hC]
              | cons choice rest =>
                by_cases hE : choice.Message.Content = "" <;>
                by_cases hk : k < maxRetries <;>
                  simp [attemptBody, sleepOrReturn, Retriable, hN, hD, hk, hR, hS, hU, hM, hC,
                    hE]
            · simp [attemptBody, sleepOrReturn, hN, hD, hR, hS, hU, hM]
        · by_cases hk : k < maxRetries <;>
            simp [attemptBody, sleepOrReturn, hN, hD, hk, hR, hS]

/-! ## Theorems on `MistralAPI` -/

/-- C4: `MistralAPI` returns, having started the attempts 1, ..., n for some n ≤ 3; attempt
1 is started exactly when the retry loop is reached; attempt k + 1 is started exactly when
attempt k was started, ended in a send failure, a body-read failure, a non-200 status, a
decoding failure or an empty or missing first choice, and k < 3; a started attempt that
yields HTTP 200 with a non-empty embedded error message is the last one, the call
returning the empty text and that error; and a started attempt 3 that ends in one of the
retriable failures ends the call with the empty text and an error. -/
theorem MistralAPI_retry_policy (w : MistralWorld) (text : String) :
    ∃ r n, MistralAPI w text = some r ∧ n ≤ 3 ∧ attemptsOf r.trace = List.range' 1 n ∧
      (1 ∈ attemptsOf r.trace ↔ LoopReached w text) ∧
      (∀ k, 1 ≤ k → (k + 1 ∈ attemptsOf r.trace ↔
        k ∈ attemptsOf r.trace ∧ Retriable w k ∧ k < 3)) ∧
      (∀ k m, k ∈ attemptsOf r.trace → EmbeddedError w k m →
        k + 1 ∉ attemptsOf r.trace ∧ r.text = "" ∧
        r.err = some ("Mistral error: " ++ m.Error.Message ++ " (type: " ++
          m.Error.Typ ++ ")")) ∧
      (∀ k, k ∈ attemptsOf r.trace → Retriable w k → ¬ k < 3 →
        r.text = "" ∧ r.err ≠ none) := by
  by_cases h : LoopReached w text
  · obtain ⟨r, n, trn, h1, h2, h3, h4, h5⟩ := MistralAPI_spec w text h
    have hat : attemptsOf r.trace = List.range' 1 (n + 1) := by
      rw [← attemptsOf_schedule, h4, attemptsOf_scheduleFrom]
    have hnot := not_retriable_of_return w 3 (1 + n) trn r h2
    refine ⟨r, n + 1, h1, by omega, hat, ?_, ?_, ?_, ?_⟩
    · rw [hat]
      simp only [List.mem_range'_1]
      exact ⟨fun _ => h, fun _ => ⟨by omega, by omega⟩⟩
    · intro k hk
      rw [hat]
      simp only [List.mem_range'_1]
      constructor
      · rintro ⟨_, hlt⟩
        exact ⟨⟨hk, by omega⟩, h5 k hk (by omega), by omega⟩
      · rintro ⟨⟨_, hlt⟩, hR, hk3⟩
        refine ⟨by omega, ?_⟩
        by_contra hcon
        have hkn : k = 1 + n := by omega
        subst hkn
        exact hnot ⟨hR, hk3⟩
    · intro k m hk hE
      rw [hat] at hk ⊢
      simp only [List.mem_range'_1] at hk ⊢
      have hnR := embeddedError_not_retriable w k m hE
      have hkn : k = 1 + n := by
        by_contra hcon
        exact hnR (h5 k hk.1 (by omega))
      subst hkn
      obtain ⟨r', hr1, hr2, _, hr4⟩ := attemptBody_embedded_error w 3 (1 + n) trn m hE
      rw [h2] at hr1
      injection hr1 with hr1
      subst hr1
      exact ⟨by omega, hr2, hr4⟩
    · intro k hk hR hk3
      rw [hat] at hk
      simp only [List.mem_range'_1] at hk
      have hkn : k = 1 + n := by omega
      subst hkn
      have hret := attemptBody_retriable_return w 3 (1 + n) trn
      rw [h2] at hret
      exact hret hR
  · obtain ⟨r, h1, _, _, h4⟩ := MistralAPI_of_not_loopReached w text h
    have hat : attemptsOf r.trace = [] := by rw [h4]; rfl
    refine ⟨r, 0, h1, by omega, by rw [hat]; rfl, ?_, ?_, ?_, ?_⟩
    · rw [hat]
      exact ⟨fun hmem => by simp at hmem, fun hl => absurd hl h⟩
    · intro k _; rw [hat]; simp
    · intro k m hk; rw [hat] at hk; simp at hk
    · intro k hk; rw [hat] at hk; simp at hk

/-- C5: `MistralAPI` returns, and the iterations it started and the sleeps it made are, in
order, nothing, or attempt 1, or attempt 1, a sleep of 1 s, attempt 2, or attempt 1, a
sleep of 1 s, attempt 2, a sleep of 2 s, attempt 3: no sleep comes before attempt 1 or
after attempt 3, and the sleeps are a prefix of 1 s, 2 s and strictly increasing. -/
theorem MistralAPI_backoff_schedule (w : MistralWorld) (text : String) :
    ∃ r, MistralAPI w text = some r ∧
      (schedule r.trace = [] ∨ schedule r.trace = [.attempt 1] ∨
        schedule r.trace = [.attempt 1, .sleep Second, .attempt 2] ∨
        schedule r.trace =
          [.attempt 1, .sleep Second, .attempt 2, .sleep (2 * Second), .attempt 3]) ∧
      sleepsOf r.trace <+: [Second, 2 * Second] ∧
      (sleepsOf r.trace).Pairwise (fun d₁ d₂ => d₁ < d₂) := by
  by_cases h : LoopReached w text
  · obtain ⟨r, n, trn, h1, _, h3, h4, _⟩ := MistralAPI_spec w text h
    have hs : sleepsOf r.trace = sleepsOf (scheduleFrom 1 n) := by
      rw [← sleepsOf_schedule, h4]
    refine ⟨r, h1, ?_, ?_, ?_⟩
    · rw [h4]
      have hn : n = 0 ∨ n = 1 ∨ n = 2 := by omega
      rcases hn with hn | hn | hn <;> subst hn
      · right; left; rfl
      · right; right; left; decide
      · right; right; right; decide
    · rw [hs]
      have hn : n = 0 ∨ n = 1 ∨ n = 2 := by omega
      rcases hn with hn | hn | hn <;> subst hn <;> decide
    · rw [hs]
      have hn : n = 0 ∨ n = 1 ∨ n = 2 := by omega
      rcases hn with hn | hn | hn <;> subst hn <;> decide
  · obtain ⟨r, h1, _, _, h4⟩ := MistralAPI_of_not_loopReached w text h
    refine ⟨r, h1, Or.inl (by rw [h4]; rfl), ?_, ?_⟩
    · rw [h4]; decide
    · rw [h4]; decide

/-- C6: when the retry loop is reached, the first k < 3 attempts each end in a retriable
failure (such as a status 503) and attempt k + 1 is valid with content c, `MistralAPI`
returns the trimmed c, the elapsed time of attempt k + 1 and a nil error, after the
attempts 1, ..., k + 1 and the k sleeps of 1 s, ..., k s (two sleeps when k = 2). -/
theorem MistralAPI_valid_after_failures (w : MistralWorld) (text : String)
    (hloop : LoopReached w text) (k : Nat) (hk : k < 3)
    (hfail : ∀ j, 1 ≤ j → j ≤ k → Retriable w j) (c : String)
    (hvalid : ValidAnswer w (k + 1) c) :
    ∃ r, MistralAPI w text = some r ∧ r.text = TrimSpace c ∧
      r.seconds = (w.attempts (k + 1)).since ∧ r.err = none ∧
      attemptsOf r.trace = List.range' 1 (k + 1) ∧
      sleepsOf r.trace = (List.range' 1 k).map (fun j => (j : Int) * Second) := by
  obtain ⟨r, n, trn, h1, h2, h3, h4, h5⟩ := MistralAPI_spec w text hloop
  have hnot := not_retriable_of_return w 3 (1 + n) trn r h2
  have hnV := validAnswer_not_retriable w (k + 1) c hvalid
  have hnk : n = k := by
    rcases Nat.lt_trichotomy n k with hlt | heq | hgt
    · exact absurd ⟨hfail (1 + n) (by omega) (by omega), by omega⟩ hnot
    · exact heq
    · exact absurd (h5 (k + 1) (by omega) (by omega)) hnV
  subst hnk
  rw [Nat.add_comm 1 n] at h2
  obtain ⟨r', hr1, hr2, hr3, hr4⟩ := attemptBody_valid w 3 (n + 1) trn c hvalid
  rw [h2] at hr1
  injection hr1 with hr1
  subst hr1
  refine ⟨r, h1, hr2, hr3, hr4, ?_, ?_⟩
  · rw [← attemptsOf_schedule, h4, attemptsOf_scheduleFrom]
  · rw [← sleepsOf_schedule, h4, sleepsOf_scheduleFrom]
    have hn : n = 0 ∨ n = 1 ∨ n = 2 := by omega
    rcases hn with hn | hn | hn <;> subst hn <;> decide

/-- Witness of C4: with two answers of status 503 and a valid third answer the attempts
started are 1, 2 and 3; with an embedded error message in the first answer the only attempt
is 1 and the call returns that error. -/
theorem MistralAPI_retry_policy_witness :
    (∃ r, MistralAPI (mistralWorldOf twoFailuresThenValid) "txet" = some r ∧
      attemptsOf r.trace = [1, 2, 3]) ∧
    (∃ r, MistralAPI (mistralWorldOf embeddedAtFirst) "txet" = some r ∧
      attemptsOf r.trace = [1] ∧ r.text = "" ∧
      r.err = some "Mistral error: bad key (type: invalid_request)") := by
  constructor
  · obtain ⟨r, n, h1, hn, hat, hbase, hstep, _, _⟩ :=
      MistralAPI_retry_policy (mistralWorldOf twoFailuresThenValid) "txet"
    have hfail : ∀ k, k = 1 ∨ k = 2 → Retriable (mistralWorldOf twoFailuresThenValid) k := by
      intro k hk
      rcases hk with hk | hk <;> subst hk <;>
        exact ⟨rfl, Or.inr (Or.inr (Or.inl ⟨⟨503, "unavailable", none⟩, rfl, by decide⟩))⟩
    have m1 := hbase.mpr ⟨rfl, _, rfl⟩
    have m2 := (hstep 1 (by omega)).mpr ⟨m1, hfail 1 (Or.inl rfl), by omega⟩
    have m3 := (hstep 2 (by omega)).mpr ⟨m2, hfail 2 (Or.inr rfl), by omega⟩
    rw [hat] at m3
    simp only [List.mem_range'_1] at m3
    have hn3 : n = 3 := by omega
    subst hn3
    exact ⟨r, h1, hat⟩
  · obtain ⟨r, n, h1, hn, hat, hbase, _, hemb, _⟩ :=
      MistralAPI_retry_policy (mistralWorldOf embeddedAtFirst) "txet"
    have m1 := hbase.mpr ⟨rfl, _, rfl⟩
    obtain ⟨hlast, htext, herr⟩ := hemb 1 ⟨[], ⟨"bad key", "invalid_request"⟩⟩ m1
      ⟨rfl, ⟨200, "err:bad key", none⟩, rfl, rfl, rfl, rfl, by decide⟩
    rw [hat] at m1 hlast
    simp only [List.mem_range'_1] at m1 hlast
    have hn1 : n = 1 := by omega
    subst hn1
    exact ⟨r, h1, hat, htext, herr⟩

/-- Witness of C5: the run with two answers of status 503 and a valid third answer. -/
theorem MistralAPI_backoff_schedule_witness :
    ∃ r, MistralAPI (mistralWorldOf twoFailuresThenValid) "txet" = some r ∧
      (schedule r.trace = [] ∨ schedule r.trace = [.attempt 1] ∨
        schedule r.trace = [.attempt 1, .sleep Second, .attempt 2] ∨
        schedule r.trace =
          [.attempt 1, .sleep Second, .attempt 2, .sleep (2 * Second), .attempt 3]) ∧
      sleepsOf r.trace <+: [Second, 2 * Second] ∧
      (sleepsOf r.trace).Pairwise (fun d₁ d₂ => d₁ < d₂) :=
  MistralAPI_backoff_schedule (mistralWorldOf twoFailuresThenValid) "txet"

/-- Witness of C6: attempts 1 and 2 answer with status 503, attempt 3 with HTTP 200 and the
content ` fixed text `; the call returns `fixed text` after the sleeps of 1 s and 2 s. -/
theorem MistralAPI_valid_after_failures_witness :
    ∃ r, MistralAPI (mistralWorldOf twoFailuresThenValid) "txet" = some r ∧
      r.text = TrimSpace " fixed text " ∧
      r.seconds = ((mistralWorldOf twoFailuresThenValid).attempts (2 + 1)).since ∧
      r.err = none ∧ attemptsOf r.trace = List.range' 1 (2 + 1) ∧
      sleepsOf r.trace = (List.range' 1 2).map (fun j => (j : Int) * Second) :=
  MistralAPI_valid_after_failures (mistralWorldOf twoFailuresThenValid) "txet"
    ⟨rfl, _, rfl⟩ 2 (by decide)
    (fun j h1 h2 => by
      have hj : j = 1 ∨ j = 2 := by omega
      rcases hj with hj | hj <;> subst hj <;>
        exact ⟨rfl, Or.inr (Or.inr (Or.inl ⟨⟨503, "unavailable", none⟩, rfl, by decide⟩))⟩)
    " fixed text "
    ⟨rfl, ⟨200, "ok: fixed text ", none⟩, ⟨[⟨⟨" fixed text ", "assistant"⟩⟩], ⟨"", ""⟩⟩,
      ⟨⟨" fixed text ", "assistant"⟩⟩, [], rfl, rfl, rfl, rfl, rfl, rfl, rfl, by decide⟩

/-! ## Theorems on `ProcessImage` -/

/-- `MistralAPI` returns: the fuel of the retry loop suffices. -/
theorem MistralAPI_total (w : MistralWorld) (text : String) :
    ∃ r, MistralAPI w text = some r := by
  by_cases h : LoopReached w text
  · obtain ⟨r, _, _, h1, _⟩ := MistralAPI_spec w text h
    exact ⟨r, h1⟩
  · obtain ⟨r, h1, _⟩ := MistralAPI_of_not_loopReached w text h
    exact ⟨r, h1⟩

/-- `ProcessImage` returns, in one of three shapes: the recognition failed, the
correction failed, or both succeeded and `logTiming` was called. -/
theorem ProcessImage_cases (w : PipelineWorld) (log : List String) :
    (∃ err, (YandexOCR w.ocr).err = some err ∧
      ProcessImage w log = some ⟨"", "", ⟨(YandexOCR w.ocr).seconds, 0, 0⟩,
        some ("OCR: " ++ err), (YandexOCR w.ocr).trace, log⟩) ∨
    (∃ gpt err, (YandexOCR w.ocr).err = none ∧
      MistralAPI w.mistral (YandexOCR w.ocr).text = some gpt ∧ gpt.err = some err ∧
      ProcessImage w log = some ⟨(YandexOCR w.ocr).text, "",
        ⟨(YandexOCR w.ocr).seconds, gpt.seconds, 0⟩, some ("Mistral: " ++ err),
        (YandexOCR w.ocr).trace ++ gpt.trace, log⟩) ∨
    (∃ gpt, (YandexOCR w.ocr).err = none ∧
      MistralAPI w.mistral (YandexOCR w.ocr).text = some gpt ∧ gpt.err = none ∧
      ProcessImage w log = some ⟨(YandexOCR w.ocr).text, gpt.text,
        ⟨(YandexOCR w.ocr).seconds, gpt.seconds, w.totalSince⟩, none,
        (YandexOCR w.ocr).trace ++ gpt.trace ++
          (logTiming w ⟨(YandexOCR w.ocr).seconds, gpt.seconds, w.totalSince⟩ log).1,
        (logTiming w ⟨(YandexOCR w.ocr).seconds, gpt.seconds, w.totalSince⟩ log).2⟩) := by
  cases hO : (YandexOCR w.ocr).err with
  | some err =>
    left
    exact ⟨err, rfl, by simp only [ProcessImage, hO]⟩
  | none =>
    right
    obtain ⟨gpt, hg⟩ := MistralAPI_total w.mistral (YandexOCR w.ocr).text
    cases hG : gpt.err with
    | some err =>
      left
      exact ⟨gpt, err, rfl, hg, hG, by simp only [ProcessImage, hO, hg, hG]⟩
    | none =>
      right
      exact ⟨gpt, rfl, hg, hG, by simp only [ProcessImage, hO, hg, hG]⟩

/-- C7 (the code at the failing input): the OCR response has HTTP 200, no error message and
a `FullText` of a single space, and every attempt of the correction answers with status
503: `YandexOCR` succeeds, `MistralAPI` fails after its attempts, and `ProcessImage`
returns an error and an empty corrected text, with an empty recognised text. -/
theorem ProcessImage_blank_recognized_text :
    (YandexOCR blankThenUnavailable.ocr).err = none ∧
    (MistralAPI blankThenUnavailable.mistral (YandexOCR blankThenUnavailable.ocr).text).map
      (fun r => (r.err, attemptsOf r.trace)) =
      some (some "Mistral failed: status 503, body: unavailable", [1, 2, 3]) ∧
    (ProcessImage blankThenUnavailable []).map (fun o => (o.ocrText, o.gptText, o.err)) =
      some ("", "", some "Mistral: Mistral failed: status 503, body: unavailable") := by
  decide

/-- When the recognition succeeds and the correction fails, `ProcessImage` returns an
error, an empty corrected text, and the text `YandexOCR` returned as recognised text. -/
theorem ProcessImage_correction_failure (w : PipelineWorld) (log : List String) (gpt : Run)
    (hocr : (YandexOCR w.ocr).err = none)
    (hgpt : MistralAPI w.mistral (YandexOCR w.ocr).text = some gpt) (herr : gpt.err ≠ none) :
    ∃ o, ProcessImage w log = some o ∧ o.err ≠ none ∧ o.gptText = "" ∧
      o.ocrText = (YandexOCR w.ocr).text := by
  rcases ProcessImage_cases w log with ⟨err, h1, _⟩ | ⟨gpt', err, _, h2, _, h4⟩ |
    ⟨gpt', _, h2, h3, _⟩
  · rw [hocr] at h1; cases h1
  · exact ⟨_, h4, by simp, rfl, rfl⟩
  · rw [hgpt] at h2
    injection h2 with h2
    subst h2
    exact absurd h3 herr

/-- C8 (as amended): `ProcessImage` returns; when it returns a non-nil error the log is
unchanged; when it returns a nil error and `timing.log` is opened and written, exactly
the one entry of this run is appended; when it returns a nil error and `timing.log`
cannot be opened, nothing is appended. -/
theorem ProcessImage_timing_log (w : PipelineWorld) (log : List String) :
    ∃ o, ProcessImage w log = some o ∧
      (o.err ≠ none → o.log = log) ∧
      (o.err = none → w.OpenFile = none → w.WriteString = none →
        o.log = log ++ [logEntryOf w o.timing]) ∧
      (o.err = none → w.OpenFile ≠ none → o.log = log) := by
  rcases ProcessImage_cases w log with ⟨err, _, h⟩ | ⟨gpt, err, _, _, _, h⟩ | ⟨gpt, _, _, _, h⟩
  · exact ⟨_, h, fun _ => rfl, by simp, by simp⟩
  · exact ⟨_, h, fun _ => rfl, by simp, by simp⟩
  · refine ⟨_, h, by simp, ?_, ?_⟩
    · intro _ hopen hwrite
      simp only [logTiming, hopen, hwrite]
    · intro _ hopen
      cases hO : w.OpenFile with
      | none => exact absurd hO hopen
      | some e => simp only [logTiming, hO]

/-- Witness of C8 (as amended): a fully successful run appends its entry to the log. -/
theorem ProcessImage_timing_log_witness :
    ∃ o, ProcessImage successWorld ["old entry\n"] = some o ∧
      (o.err ≠ none → o.log = ["old entry\n"]) ∧
      (o.err = none → successWorld.OpenFile = none → successWorld.WriteString = none →
        o.log = ["old entry\n"] ++ [logEntryOf successWorld o.timing]) ∧
      (o.err = none → successWorld.OpenFile ≠ none → o.log = ["old entry\n"]) :=
  ProcessImage_timing_log successWorld ["old entry\n"]

/-- Counterexample to C8 as stated: both stages succeed and `timing.log` cannot be opened;
`ProcessImage` returns a nil error and the log has the entries it had before. -/
theorem ProcessImage_log_not_appended :
    (ProcessImage { successWorld with OpenFile := some "permission denied" }
        ["old entry\n"]).map (fun o => (o.err, o.log)) = some (none, ["old entry\n"]) ∧
    ¬ ∃ o entry,
      ProcessImage { successWorld with OpenFile := some "permission denied" }
        ["old entry\n"] = some o ∧ o.err = none ∧ o.log = ["old entry\n"] ++ [entry] := by
  refine ⟨by decide, ?_⟩
  rintro ⟨o, entry, h1, _, h3⟩
  have h : (ProcessImage { successWorld with OpenFile := some "permission denied" }
      ["old entry\n"]).map (fun o => o.log) = some ["old entry\n"] := by decide
  rw [h1] at h
  simp only [Option.map_some', Option.some.injEq] at h
  rw [h] at h3
  simp at h3

/-- No effect of `YandexOCR` is an effect of `MistralAPI`. -/
theorem YandexOCR_no_mistral_event (w : OCRWorld) :
    ∀ e ∈ (YandexOCR w).trace, isMistralEvent e = false := by
  have h : (YandexOCR w).trace.all (fun e => !isMistralEvent e) = true := by
    simp only [YandexOCR]
    repeat' split
    all_goals rfl
  intro e he
  have h2 := List.all_eq_true.mp h e he
  simpa using h2

/-- C11: when `YandexOCR` returns an error, `ProcessImage` returns empty recognised and
corrected texts, `GPTTime` and `TotalTime` equal to 0, `OCRTime` equal to the elapsed value
`YandexOCR` returned, and the error of `YandexOCR` behind the prefix `OCR: `, which does
not start with `Mistral: `; its effects are those of `YandexOCR`, none of them an effect
of `MistralAPI`, and the log is unchanged. -/
theorem ProcessImage_recognition_failure (w : PipelineWorld) (log : List String)
    (err : String) (hocr : (YandexOCR w.ocr).err = some err) :
    ∃ o, ProcessImage w log = some o ∧ o.ocrText = "" ∧ o.gptText = "" ∧
      o.timing.GPTTime = 0 ∧ o.timing.TotalTime = 0 ∧
      o.timing.OCRTime = (YandexOCR w.ocr).seconds ∧
      o.err = some ("OCR: " ++ err) ∧ ¬ ("Mistral: ".data <+: ("OCR: " ++ err).data) ∧
      o.trace = (YandexOCR w.ocr).trace ∧ (∀ e ∈ o.trace, isMistralEvent e = false) ∧
      o.log = log := by
  refine ⟨⟨"", "", ⟨(YandexOCR w.ocr).seconds, 0, 0⟩, some ("OCR: " ++ err),
    (YandexOCR w.ocr).trace, log⟩, ?_, rfl, rfl, rfl, rfl, rfl, rfl, ?_, rfl, ?_, rfl⟩
  · simp only [ProcessImage, hocr]
  · rintro ⟨t, ht⟩
    rw [String.data_append] at ht
    have h0 := congrArg List.head? ht
    simp at h0
  · exact YandexOCR_no_mistral_event w.ocr

/-- Witness of C11: the OCR service answers with the error message `quota exceeded`. -/
theorem ProcessImage_recognition_failure_witness :
    ∃ o, ProcessImage quotaWorld ["old entry\n"] = some o ∧ o.ocrText = "" ∧ o.gptText = "" ∧
      o.timing.GPTTime = 0 ∧ o.timing.TotalTime = 0 ∧
      o.timing.OCRTime = (YandexOCR quotaWorld.ocr).seconds ∧
      o.err = some ("OCR: " ++ "OCR error: quota exceeded") ∧
      ¬ ("Mistral: ".data <+: ("OCR: " ++ "OCR error: quota exceeded").data) ∧
      o.trace = (YandexOCR quotaWorld.ocr).trace ∧
      (∀ e ∈ o.trace, isMistralEvent e = false) ∧ o.log = ["old entry\n"] :=
  ProcessImage_recognition_failure quotaWorld ["old entry\n"] "OCR error: quota exceeded"
    (by decide)

/-! ## Theorems on `logTiming` -/

/-- C13 (as amended): for every `Timing` value and timestamp, when `timing.log` is opened,
the string `logTiming` writes is the line `[<timestamp>] OCR: <f> sec, Mistral: <f> sec,
Total: <f> sec` and a newline, with the labels `OCR`, `Mistral` and `Total` in that
order carrying `OCRTime`, `GPTTime` and `TotalTime`; when it is written, it is the entry
appended to the log. -/
theorem logTiming_line (w : PipelineWorld) (timing : Timing) (log : List String)
    (hopen : w.OpenFile = none) :
    (logTiming w timing log).1 =
      [.openAppend "timing.log",
        .writeString (timingLine w.Now "OCR" (w.formatSeconds timing.OCRTime)
          "Mistral" (w.formatSeconds timing.GPTTime)
          "Total" (w.formatSeconds timing.TotalTime))] ∧
    (w.WriteString = none →
      (logTiming w timing log).2 =
        log ++ [timingLine w.Now "OCR" (w.formatSeconds timing.OCRTime)
          "Mistral" (w.formatSeconds timing.GPTTime)
          "Total" (w.formatSeconds timing.TotalTime)]) := by
  have hline : logEntryOf w timing =
      timingLine w.Now "OCR" (w.formatSeconds timing.OCRTime)
        "Mistral" (w.formatSeconds timing.GPTTime)
        "Total" (w.formatSeconds timing.TotalTime) := by
    apply String.ext
    simp only [logEntryOf, timingLine, String.data_append, List.append_assoc]
    rfl
  rw [← hline]
  constructor
  · cases hW : w.WriteString with
    | none => simp only [logTiming, hopen, hW]; rfl
    | some p => simp only [logTiming, hopen, hW]; rfl
  · intro hW
    simp only [logTiming, hopen, hW]

/-- Witness of C13 (as amended): the line of a run of 5 s, 7 s and 12 s. -/
theorem logTiming_line_witness :
    (logTiming successWorld ⟨5, 7, 12⟩ ["old entry\n"]).1 =
      [.openAppend "timing.log",
        .writeString (timingLine successWorld.Now "OCR" (successWorld.formatSeconds 5)
          "Mistral" (successWorld.formatSeconds 7)
          "Total" (successWorld.formatSeconds 12))] ∧
    (successWorld.WriteString = none →
      (logTiming successWorld ⟨5, 7, 12⟩ ["old entry\n"]).2 =
        ["old entry\n"] ++ [timingLine successWorld.Now "OCR" (successWorld.formatSeconds 5)
          "Mistral" (successWorld.formatSeconds 7)
          "Total" (successWorld.formatSeconds 12)]) :=
  logTiming_line successWorld ⟨5, 7, 12⟩ ["old entry\n"] rfl

/-- Counterexample to C13 as stated: the line appended for a run of 5 s, 7 s and 12 s
carries the label `Mistral`, and is not the line with the label `Correction`. -/
theorem logTiming_line_not_correction :
    (logTiming successWorld ⟨5, 7, 12⟩ []).2 =
      ["[2025-01-01T00:00:00Z] OCR: 0.00 sec, Mistral: 0.00 sec, Total: 0.00 sec\n"] ∧
    timingLine "2025-01-01T00:00:00Z" "OCR" "0.00" "Correction" "0.00" "Total" "0.00" =
      "[2025-01-01T00:00:00Z] OCR: 0.00 sec, Correction: 0.00 sec, Total: 0.00 sec\n" ∧
    (logTiming successWorld ⟨5, 7, 12⟩ []).2 ≠
      [timingLine successWorld.Now "OCR" (successWorld.formatSeconds 5)
        "Correction" (successWorld.formatSeconds 7)
        "Total" (successWorld.formatSeconds 12)] := by
  decide

/-! ## Theorems on `handleImage` -/

/-- The run of `handleImage` once `ProcessImage` has returned. -/
theorem handleImage_of_reached (w : HandlerWorld) (settings : UserSettings)
    (log : List String) (o : Outcome) (hreach : PipelineReached w)
    (hrun : ProcessImage w.pipeline log = some o) :
    handleImage w settings log =
      some (.done (sendResult w settings.Format o.gptText
        (responseMsgOf settings.Language o.gptText o.err)) o.log o.trace) := by
  obtain ⟨photo, fileURL, h1, h2, h3, h4, h5, h6, h7, h8⟩ := hreach
  simp only [handleImage, h1, h2, h3, h4, h5, hrun]
  simp [h6, h7, h8]

/-- A failure of either stage leaves the corrected text empty. -/
theorem ProcessImage_error_gptText (w : PipelineWorld) (log : List String) (o : Outcome)
    (hrun : ProcessImage w log = some o) (herr : o.err ≠ none) : o.gptText = "" := by
  rcases ProcessImage_cases w log with ⟨err, _, h⟩ | ⟨gpt, err, _, _, _, h⟩ | ⟨gpt, _, _, _, h⟩
  all_goals
    rw [hrun] at h
    injection h with h
    subst h
    first | rfl | exact absurd rfl herr

theorem handlerWorldOf_reached (pipeline : PipelineWorld) :
    PipelineReached (handlerWorldOf pipeline) :=
  ⟨"large", _, rfl, rfl, rfl, rfl, rfl, by simp [handlerWorldOf], by simp [handlerWorldOf],
    by simp [handlerWorldOf]⟩

theorem newlines_append_ne_empty (s : String) : "\n\n" ++ s ≠ "" := by
  intro h
  have h2 := congrArg String.data h
  rw [String.data_append] at h2
  simp at h2

/-- C12 (the code at the failing input): the correction returns `abv` followed by the
marker, with a nil error; for the default format `handleImage` sends that text as it is,
and for the format `TXT-файл` a document with that text, whereas the substitution of
the marker would give `abv` followed by the friendlier message. -/
theorem handleImage_marker_delivered :
    (ProcessImage illegibleWorld []).map (fun o => (o.gptText, o.err)) =
      some ("abv слишком неразборчиво 9905148", none) ∧
    (handleImage (handlerWorldOf illegibleWorld) DefaultSettings []).map Handled.sent =
      some [.message 42 "abv слишком неразборчиво 9905148"] ∧
    (handleImage (handlerWorldOf illegibleWorld)
        { DefaultSettings with Format := "TXT-файл" } []).map Handled.sent =
      some [.document 42 "result.txt" (.ofString "abv слишком неразборчиво 9905148")] ∧
    ReplaceAll "abv слишком неразборчиво 9905148" sentinelMarker friendlyMessage =
      "abv Текст слишком неразборчивый, попробуйте сфотографировать получше и повторите попытку." := by
  decide

/-- C14: when `handleImage` has called `ProcessImage`, (1) an error of either stage comes
with an empty corrected text; (2) for the formats `TXT-файл` and `PDF-файл` an empty
corrected text makes `handleImage` send nothing; (3) for any other format an error of
the pipeline with an empty corrected text is sent to the chat in one message. -/
theorem handleImage_file_formats_silent (w : HandlerWorld) (settings : UserSettings)
    (log : List String) (o : Outcome) (hreach : PipelineReached w)
    (hrun : ProcessImage w.pipeline log = some o) :
    (o.err ≠ none → o.gptText = "") ∧
    (settings.Format = "TXT-файл" ∨ settings.Format = "PDF-файл" → o.gptText = "" →
      handleImage w settings log = some (.done [] o.log o.trace)) ∧
    (settings.Format ≠ "TXT-файл" → settings.Format ≠ "PDF-файл" →
      ∀ err, o.err = some err →
        handleImage w settings log =
          some (.done [.message w.chatID
            ("\n\n" ++ (tr settings.Language "error_ocr" ++ ": " ++ err))] o.log o.trace)) := by
  have hrun2 := handleImage_of_reached w settings log o hreach hrun
  refine ⟨ProcessImage_error_gptText w.pipeline log o hrun, ?_, ?_⟩
  · intro hformat hempty
    rw [hrun2, hempty]
    rcases hformat with hf | hf
    · simp [sendResult, hf]
    · have hne : ¬ ("PDF-файл" = "TXT-файл") := by decide
      simp [sendResult, hf, hne]
  · intro hf1 hf2 err herr
    have hempty := ProcessImage_error_gptText w.pipeline log o hrun (by simp [herr])
    have hmsg : responseMsgOf settings.Language o.gptText o.err =
        "\n\n" ++ (tr settings.Language "error_ocr" ++ ": " ++ err) := by
      simp only [responseMsgOf, hempty, herr, ne_eq, not_true_eq_false, if_false,
        String.empty_append, String.append_assoc]
    rw [hrun2, hmsg]
    simp [sendResult, hf1, hf2, newlines_append_ne_empty]

/-- Witness of C14: the OCR service answers with the error message `quota exceeded` and
the chat asks for `TXT-файл`. -/
theorem handleImage_file_formats_silent_witness :
    ((ProcessImage quotaWorld []).map (fun o => o.gptText) = some "") ∧
    handleImage (handlerWorldOf quotaWorld) { DefaultSettings with Format := "TXT-файл" } [] =
      some (.done [] [] [.statFile, .openFile, .readFile, .newRequest ocrURL, .send ocrURL,
        .readBody, .writeFile "api_response.json" "{}"]) :=
  ⟨by decide,
    (handleImage_file_formats_silent (handlerWorldOf quotaWorld)
      { DefaultSettings with Format := "TXT-файл" } []
      ⟨"", "", ⟨5, 0, 0⟩, some "OCR: OCR error: quota exceeded",
        [.statFile, .openFile, .readFile, .newRequest ocrURL, .send ocrURL, .readBody,
          .writeFile "api_response.json" "{}"], []⟩
      (handlerWorldOf_reached quotaWorld) (by decide)).2.1 (Or.inl rfl) rfl⟩

end OCRPipeline
